import Mathlib

/-!
Verification of the flowshare allocation engine (accountant-agent calculators):
a shallow embedding over ℚ of `temperature_corrector.py`, `api_corrector.py`,
`net_volume_calculator.py`, `shrinkage_calculator.py` and
`allocation_calculator.py`, with theorems settling the spec claims.

Python floats are modelled as exact rationals; Python's `round(x, n)` is
modelled as round-half-up on the scaled rational (`round` below).  No concrete
value evaluated in this file sits on a rounding tie, so the tie-breaking
convention never matters for the results proved here.
-/

/-- Rounds `x` to `n` decimal places, modelling Python's `round(x, n)`. -/
def roundTo (n : ℕ) (x : ℚ) : ℚ := (round (x * 10 ^ n) : ℤ) / 10 ^ n

namespace TemperatureCorrector

/-- `STANDARD_TEMP_F` from `temperature_corrector.py`. -/
def STANDARD_TEMP_F : ℚ := 60

/-- `MIN_VCF` from `temperature_corrector.py`. -/
def MIN_VCF : ℚ := 0.95

/-- `MAX_VCF` from `temperature_corrector.py`. -/
def MAX_VCF : ℚ := 1.05

/-- `TemperatureCorrector.get_correction_coefficients`: the pair (alpha, beta)
selected by the 4-band API-gravity classification. -/
def get_correction_coefficients (api_gravity : ℚ) : ℚ × ℚ :=
  if api_gravity ≤ 10 then
    (0.0003, 0.0000001)
  else if api_gravity ≤ 25 then
    let factor := (api_gravity - 10) / 15
    (0.0003 + factor * 0.0001, 0.0000001 + factor * 0.0000001)
  else if api_gravity ≤ 45 then
    let factor := (api_gravity - 25) / 20
    (0.0004 + factor * 0.0001, 0.0000002 + factor * 0.0000003)
  else
    (0.0005, 0.0000005)

/-- `TemperatureCorrector.calculate_correction` (with the default standard
temperature of 60°F): VCF = 1 - alpha·(T - Ts) - beta·(T - Ts)², constrained to
[MIN_VCF, MAX_VCF] and rounded to 6 decimal places. -/
def calculate_correction (observed_temp api_gravity : ℚ) : ℚ :=
  let temp_diff := observed_temp - STANDARD_TEMP_F
  let coeffs := get_correction_coefficients api_gravity
  let vcf := 1 - coeffs.1 * temp_diff - coeffs.2 * temp_diff ^ 2
  roundTo 6 (max MIN_VCF (min MAX_VCF vcf))

/-- `TemperatureCorrector.validate_temperature`. -/
def validate_temperature (temperature : ℚ) : Prop :=
  -50 ≤ temperature ∧ temperature ≤ 200

instance (t : ℚ) : Decidable (validate_temperature t) := by
  unfold validate_temperature; infer_instance

end TemperatureCorrector

namespace APICorrector

/-- `MIN_CORRECTION` from `api_corrector.py`. -/
def MIN_CORRECTION : ℚ := 0.9

/-- `MAX_CORRECTION` from `api_corrector.py`. -/
def MAX_CORRECTION : ℚ := 1.15

/-- `APICorrector.calculate_specific_gravity`: SG = 141.5 / (API + 131.5). -/
def calculate_specific_gravity (api_gravity : ℚ) : ℚ :=
  141.5 / (api_gravity + 131.5)

/-- `APICorrector.calculate_correction`: standard SG / observed SG, constrained
to [MIN_CORRECTION, MAX_CORRECTION] and rounded to 6 decimal places. -/
def calculate_correction (observed_api terminal_api : ℚ) : ℚ :=
  let observed_sg := calculate_specific_gravity observed_api
  let standard_sg := calculate_specific_gravity terminal_api
  let correction := standard_sg / observed_sg
  roundTo 6 (max MIN_CORRECTION (min MAX_CORRECTION correction))

/-- `APICorrector.validate_api_gravity`. -/
def validate_api_gravity (api_gravity : ℚ) : Prop :=
  10 ≤ api_gravity ∧ api_gravity ≤ 45

instance (a : ℚ) : Decidable (validate_api_gravity a) := by
  unfold validate_api_gravity; infer_instance

end APICorrector

namespace NetVolumeCalculator

/-- `NetVolumeCalculator.calculate_water_cut_factor`: 1 - bsw/100, where bsw is
first constrained to [0, 99.99] when it lies outside [0, 100). -/
def calculate_water_cut_factor (bsw_percent : ℚ) : ℚ :=
  let b := if 0 ≤ bsw_percent ∧ bsw_percent < 100 then bsw_percent
           else max 0 (min 99.99 bsw_percent)
  1 - b / 100

/-- The dictionary returned by `NetVolumeCalculator.calculate_net_volume`. -/
structure NetVolumeResult where
  net_volume : ℚ
  gross_volume : ℚ
  water_cut_factor : ℚ
  temp_correction : ℚ
  api_correction : ℚ
  bsw_deduction : ℚ
  temperature_adjustment : ℚ
  api_adjustment : ℚ
deriving DecidableEq

/-- `NetVolumeCalculator.calculate_net_volume`: combines the water-cut,
temperature and API corrections, rounding the volume figures to 2 decimals and
the factors to 6 decimals exactly as the source does. -/
def calculate_net_volume (gross_volume bsw_percent temperature_degf observed_api
    terminal_api : ℚ) : NetVolumeResult :=
  let water_cut_factor := calculate_water_cut_factor bsw_percent
  let temp_correction := TemperatureCorrector.calculate_correction temperature_degf observed_api
  let api_correction := APICorrector.calculate_correction observed_api terminal_api
  { net_volume := roundTo 2 (gross_volume * water_cut_factor * temp_correction * api_correction)
    gross_volume := gross_volume
    water_cut_factor := roundTo 6 water_cut_factor
    temp_correction := roundTo 6 temp_correction
    api_correction := roundTo 6 api_correction
    bsw_deduction := roundTo 2 (gross_volume - gross_volume * water_cut_factor)
    temperature_adjustment := roundTo 2 (gross_volume * water_cut_factor * (1 - temp_correction))
    api_adjustment :=
      roundTo 2 (gross_volume * water_cut_factor * temp_correction * (1 - api_correction)) }

/-- `NetVolumeCalculator.validate_inputs`: the list of validation error
messages (empty iff the inputs are valid). -/
def validate_inputs (gross_volume bsw_percent temperature_degf api_gravity : ℚ) :
    List String :=
  (if gross_volume ≤ 0 then ["Gross volume must be greater than 0"] else []) ++
  (if ¬(0 ≤ bsw_percent ∧ bsw_percent < 100) then
    ["BS&W percentage must be between 0 and 99.99"] else []) ++
  (if ¬TemperatureCorrector.validate_temperature temperature_degf then
    ["Temperature must be between -50°F and 200°F"] else []) ++
  (if ¬APICorrector.validate_api_gravity api_gravity then
    ["API Gravity must be between 10 and 45 degrees"] else [])

end NetVolumeCalculator

namespace ShrinkageCalculator

/-- `ShrinkageCalculator.calculate_shrinkage_factor`: ((total net − terminal) /
total net) × 100 rounded to 2 decimals, and 0 when the total net volume is 0. -/
def calculate_shrinkage_factor (total_net_volume terminal_volume : ℚ) : ℚ :=
  if total_net_volume = 0 then 0
  else roundTo 2 ((total_net_volume - terminal_volume) / total_net_volume * 100)

/-- `ShrinkageCalculator.calculate_volume_loss`. -/
def calculate_volume_loss (total_net_volume terminal_volume : ℚ) : ℚ :=
  roundTo 2 (total_net_volume - terminal_volume)

/-- The dictionary returned by `ShrinkageCalculator.get_shrinkage_analysis`. -/
structure ShrinkageAnalysis where
  shrinkage_factor : ℚ
  volume_loss : ℚ
  total_gross_volume : ℚ
  total_net_volume : ℚ
  terminal_volume : ℚ
  total_corrections : ℚ
  terminal_variance : ℚ
  efficiency_rate : ℚ
deriving DecidableEq

/-- `ShrinkageCalculator.get_shrinkage_analysis`. -/
def get_shrinkage_analysis (total_gross_volume total_net_volume terminal_volume : ℚ) :
    ShrinkageAnalysis :=
  { shrinkage_factor := calculate_shrinkage_factor total_net_volume terminal_volume
    volume_loss := calculate_volume_loss total_net_volume terminal_volume
    total_gross_volume := roundTo 2 total_gross_volume
    total_net_volume := roundTo 2 total_net_volume
    terminal_volume := roundTo 2 terminal_volume
    total_corrections := roundTo 2 (total_gross_volume - total_net_volume)
    terminal_variance := roundTo 2 (total_net_volume - terminal_volume)
    efficiency_rate :=
      if 0 < total_gross_volume then roundTo 2 (terminal_volume / total_gross_volume * 100)
      else 0 }

end ShrinkageCalculator

namespace AllocationCalculator

/-- A production entry dictionary, with all the fields `calculate` reads. -/
structure ProductionEntry where
  partner : String
  gross_volume_bbl : ℚ
  bsw_percent : ℚ
  temperature_degF : ℚ
  api_gravity : ℚ
deriving DecidableEq

/-- A terminal receipt dictionary. -/
structure TerminalReceipt where
  terminal_volume_bbl : ℚ
  api_gravity : ℚ
deriving DecidableEq

/-- The distinct partner identifiers of a list of entries in first-appearance
order, as produced by the insertion-ordered `partner_aggregates` dict. -/
def partnerKeys (entries : List ProductionEntry) : List String :=
  entries.foldl (fun acc e => if e.partner ∈ acc then acc else acc ++ [e.partner]) []

/-- The entries belonging to one partner, in order. -/
def entriesOf (entries : List ProductionEntry) (p : String) : List ProductionEntry :=
  entries.filter (fun e => decide (e.partner = p))

/-- One partner's accumulated `total_gross_volume`. -/
def total_gross_of (entries : List ProductionEntry) (p : String) : ℚ :=
  ((entriesOf entries p).map (·.gross_volume_bbl)).sum

/-- One partner's accumulated `weighted_bsw_sum`. -/
def weighted_bsw_of (entries : List ProductionEntry) (p : String) : ℚ :=
  ((entriesOf entries p).map (fun e => e.bsw_percent * e.gross_volume_bbl)).sum

/-- One partner's accumulated `weighted_temp_sum`. -/
def weighted_temp_of (entries : List ProductionEntry) (p : String) : ℚ :=
  ((entriesOf entries p).map (fun e => e.temperature_degF * e.gross_volume_bbl)).sum

/-- One partner's accumulated `weighted_api_sum`. -/
def weighted_api_of (entries : List ProductionEntry) (p : String) : ℚ :=
  ((entriesOf entries p).map (fun e => e.api_gravity * e.gross_volume_bbl)).sum

/-- `AllocationCalculator.aggregate_by_partner`: one aggregated entry per
partner key whose total gross volume is positive, with gross-volume-weighted
averages of bsw, temperature and API gravity.  Sums over a partner's entries
render the per-entry `+=` accumulation into the insertion-ordered dict. -/
def aggregate_by_partner (entries : List ProductionEntry) : List ProductionEntry :=
  (partnerKeys entries).filterMap (fun p =>
    let total_volume := total_gross_of entries p
    if 0 < total_volume then
      some { partner := p
             gross_volume_bbl := total_volume
             bsw_percent := weighted_bsw_of entries p / total_volume
             temperature_degF := weighted_temp_of entries p / total_volume
             api_gravity := weighted_api_of entries p / total_volume }
    else none)

/-- The entry list actually processed by `calculate` after step 1: the input
list itself, or its aggregation when several entries share a partner. -/
def effective_entries (entries : List ProductionEntry) : List ProductionEntry :=
  if (partnerKeys entries).length < entries.length then aggregate_by_partner entries
  else entries

/-- The ways `calculate` raises `ValueError`. -/
inductive AllocError where
  | noEntries : AllocError
  | nonpositiveTerminalVolume : AllocError
  | nonpositiveTerminalApi : AllocError
  | invalidEntry (partner : String) (errors : List String) : AllocError
deriving DecidableEq

/-- One element of `net_volume_results` in `calculate` step 2. -/
structure NetLine where
  partner : String
  gross_volume : ℚ
  net_volume : ℚ
  water_cut_factor : ℚ
  temp_correction : ℚ
  api_correction : ℚ
  bsw_deduction : ℚ
  temperature_adjustment : ℚ
  api_adjustment : ℚ
deriving DecidableEq

/-- Builds one `net_volume_results` element from an entry (step 2 body). -/
def netLineOf (terminal_api : ℚ) (e : ProductionEntry) : NetLine :=
  let r := NetVolumeCalculator.calculate_net_volume e.gross_volume_bbl e.bsw_percent
    e.temperature_degF e.api_gravity terminal_api
  { partner := e.partner
    gross_volume := e.gross_volume_bbl
    net_volume := r.net_volume
    water_cut_factor := r.water_cut_factor
    temp_correction := r.temp_correction
    api_correction := r.api_correction
    bsw_deduction := r.bsw_deduction
    temperature_adjustment := r.temperature_adjustment
    api_adjustment := r.api_adjustment }

/-- Step 2 of `calculate`: validate each entry in order, aborting on the first
invalid one, and compute the net-volume lines of the valid ones. -/
def computeNetLines (terminal_api : ℚ) : List ProductionEntry → Except AllocError (List NetLine)
  | [] => .ok []
  | e :: rest =>
    if NetVolumeCalculator.validate_inputs e.gross_volume_bbl e.bsw_percent
        e.temperature_degF e.api_gravity = [] then
      (computeNetLines terminal_api rest).map (fun lines => netLineOf terminal_api e :: lines)
    else
      .error (.invalidEntry e.partner (NetVolumeCalculator.validate_inputs e.gross_volume_bbl
        e.bsw_percent e.temperature_degF e.api_gravity))

/-- `MAX_PERCENTAGE` from `calculate` step 4. -/
def MAX_PERCENTAGE : ℚ := 99.99999

/-- `raw_percentage` of one line (first pass of step 4). -/
def rawPct (total_net_volume net_volume : ℚ) : ℚ :=
  if 0 < total_net_volume then net_volume / total_net_volume * 100 else 0

/-- The lines whose raw percentage exceeds the cap (`capped_partners`). -/
def cappedLines (total_net_volume : ℚ) (lines : List NetLine) : List NetLine :=
  lines.filter (fun l => decide (MAX_PERCENTAGE < rawPct total_net_volume l.net_volume))

/-- The remaining lines (`uncapped_partners`). -/
def uncappedLines (total_net_volume : ℚ) (lines : List NetLine) : List NetLine :=
  lines.filter (fun l => !decide (MAX_PERCENTAGE < rawPct total_net_volume l.net_volume))

/-- `total_capped_allocation`: each capped partner is allocated
`terminal_volume * (MAX_PERCENTAGE / 100)`. -/
def total_capped_allocation (terminal_volume total_net_volume : ℚ)
    (lines : List NetLine) : ℚ :=
  ((cappedLines total_net_volume lines).map
    (fun _ => terminal_volume * (MAX_PERCENTAGE / 100))).sum

/-- `total_uncapped_net_volume`. -/
def total_uncapped_net_volume (total_net_volume : ℚ) (lines : List NetLine) : ℚ :=
  ((uncappedLines total_net_volume lines).map (·.net_volume)).sum

/-- One allocation with its step-4 outcome (`final_percentage`,
`final_allocated`, and whether the cap was applied). -/
structure FinAlloc where
  line : NetLine
  raw_percentage : ℚ
  capped : Bool
  final_percentage : ℚ
  final_allocated : ℚ
deriving DecidableEq

/-- Step 4 of `calculate`: cap partners whose raw percentage exceeds
`MAX_PERCENTAGE`, then distribute the remaining terminal volume over the
uncapped partners in proportion to net volume.  The output order is
`capped_partners ++ uncapped_partners`, as in the source. -/
def step4 (terminal_volume total_net_volume : ℚ) (lines : List NetLine) : List FinAlloc :=
  let remaining_volume :=
    terminal_volume - total_capped_allocation terminal_volume total_net_volume lines
  let tun := total_uncapped_net_volume total_net_volume lines
  (cappedLines total_net_volume lines).map (fun l =>
    { line := l
      raw_percentage := rawPct total_net_volume l.net_volume
      capped := true
      final_percentage := MAX_PERCENTAGE
      final_allocated := terminal_volume * (MAX_PERCENTAGE / 100) }) ++
  (uncappedLines total_net_volume lines).map (fun l =>
    if 0 < tun then
      { line := l
        raw_percentage := rawPct total_net_volume l.net_volume
        capped := false
        final_percentage := remaining_volume * (l.net_volume / tun) / terminal_volume * 100
        final_allocated := remaining_volume * (l.net_volume / tun) }
    else
      { line := l
        raw_percentage := rawPct total_net_volume l.net_volume
        capped := false
        final_percentage := 0
        final_allocated := 0 })

/-- First index of the maximal element, as Python's `max(range(n), key=...)`
selects it (ties keep the earlier index). -/
def largestIdx (l : List ℚ) : ℕ :=
  (l.enum.foldl (fun best p => if best.2 < p.2 then p else best) (0, l.headD 0)).1

/-- Adds `d` to the `final_allocated` of the element at the given index. -/
def addToNth (d : ℚ) : ℕ → List FinAlloc → List FinAlloc
  | _, [] => []
  | 0, a :: rest => { a with final_allocated := a.final_allocated + d } :: rest
  | n + 1, a :: rest => a :: addToNth d n rest

/-- One record of the returned `allocation_results`. -/
structure AllocationRecord where
  partner : String
  gross_volume : ℚ
  net_volume : ℚ
  allocated_volume : ℚ
  percentage : ℚ
  water_cut_factor : ℚ
  temp_correction : ℚ
  api_correction : ℚ
  bsw_deduction : ℚ
  temperature_adjustment : ℚ
  api_adjustment : ℚ
  volume_loss : ℚ
deriving DecidableEq

/-- The final rounding of one allocation: round the volumes to 2 decimals and
recompute the percentage and the volume loss from the final allocated
volume. -/
def finalRecord (terminal_volume : ℚ) (a : FinAlloc) : AllocationRecord :=
  let av := roundTo 2 a.final_allocated
  { partner := a.line.partner
    gross_volume := roundTo 2 a.line.gross_volume
    net_volume := roundTo 2 a.line.net_volume
    allocated_volume := av
    percentage := roundTo 2 (av / terminal_volume * 100)
    water_cut_factor := a.line.water_cut_factor
    temp_correction := a.line.temp_correction
    api_correction := a.line.api_correction
    bsw_deduction := roundTo 2 a.line.bsw_deduction
    temperature_adjustment := roundTo 2 a.line.temperature_adjustment
    api_adjustment := roundTo 2 a.line.api_adjustment
    volume_loss := roundTo 2 (a.line.gross_volume - av) }

/-- The final-adjustment phase of `calculate`: add the rounding difference to
the largest allocation when it is non-zero, then round every volume to 2
decimals and recompute percentages and losses from the final volumes. -/
def reconcile (terminal_volume : ℚ) (allocs : List FinAlloc) : List AllocationRecord :=
  let total_before := (allocs.map (·.final_allocated)).sum
  let rounding_difference := terminal_volume - total_before
  let adjusted :=
    if rounding_difference ≠ 0 ∧ 0 < allocs.length then
      addToNth rounding_difference (largestIdx (allocs.map (·.final_allocated))) allocs
    else allocs
  adjusted.map (finalRecord terminal_volume)

/-- The complete result dictionary returned by `calculate`. -/
structure AllocationResult where
  allocation_results : List AllocationRecord
  total_gross_volume : ℚ
  total_net_volume : ℚ
  terminal_volume : ℚ
  shrinkage_factor : ℚ
  shrinkage_analysis : ShrinkageCalculator.ShrinkageAnalysis
  total_allocated : ℚ
  allocation_variance : ℚ
deriving DecidableEq

/-- Steps 3-5 of `calculate`, once the net-volume lines are known. -/
def build_result (terminal_volume : ℚ) (lines : List NetLine) : AllocationResult :=
  let total_gross_volume := (lines.map (·.gross_volume)).sum
  let total_net_volume := (lines.map (·.net_volume)).sum
  let analysis := ShrinkageCalculator.get_shrinkage_analysis total_gross_volume
    total_net_volume terminal_volume
  let allocation_results := reconcile terminal_volume (step4 terminal_volume total_net_volume lines)
  let total_allocated := (allocation_results.map (·.allocated_volume)).sum
  { allocation_results := allocation_results
    total_gross_volume := roundTo 2 total_gross_volume
    total_net_volume := roundTo 2 total_net_volume
    terminal_volume := terminal_volume
    shrinkage_factor := analysis.shrinkage_factor
    shrinkage_analysis := analysis
    total_allocated := roundTo 2 total_allocated
    allocation_variance := roundTo 2 |total_allocated - terminal_volume| }

/-- `AllocationCalculator.calculate`. -/
def calculate (production_entries : List ProductionEntry)
    (terminal_receipt : TerminalReceipt) : Except AllocError AllocationResult :=
  if production_entries = [] then .error .noEntries
  else if terminal_receipt.terminal_volume_bbl ≤ 0 then .error .nonpositiveTerminalVolume
  else if terminal_receipt.api_gravity ≤ 0 then .error .nonpositiveTerminalApi
  else
    match computeNetLines terminal_receipt.api_gravity (effective_entries production_entries) with
    | .error err => .error err
    | .ok lines => .ok (build_result terminal_receipt.terminal_volume_bbl lines)

end AllocationCalculator

/-!  Definitions taken from the specification's wording, for comparison with
the code-derived definitions above (refinement claims C2 and C6). -/

namespace SpecModel

/-- The spec's step-4c policy, stated on a list of raw percentages: cap each at
`MAX_PERCENTAGE`, scale every (possibly capped) percentage by 100 divided by
the sum of capped percentages, then re-apply the cap once more. -/
def cap_then_normalize (raw_percentages : List ℚ) : List ℚ :=
  let capped := raw_percentages.map (fun p => min p AllocationCalculator.MAX_PERCENTAGE)
  let s := capped.sum
  capped.map (fun p => min (p / s * 100) AllocationCalculator.MAX_PERCENTAGE)

/-- The VCF of the spec's §4.2 wording: 1 − α·(T − 60) − β·(T − 60)², clamped
to [0.95, 1.05], with (α, β) constant on the outer bands and linearly
interpolated between the stated endpoint pairs on the two middle bands. -/
def vcf_specification (observed_temp api_gravity : ℚ) : ℚ :=
  let d := observed_temp - 60
  let alpha :=
    if api_gravity ≤ 10 then 0.0003
    else if api_gravity ≤ 25 then
      let t := (api_gravity - 10) / 15
      0.0003 * (1 - t) + 0.0004 * t
    else if api_gravity ≤ 45 then
      let t := (api_gravity - 25) / 20
      0.0004 * (1 - t) + 0.0005 * t
    else 0.0005
  let beta :=
    if api_gravity ≤ 10 then 0.0000001
    else if api_gravity ≤ 25 then
      let t := (api_gravity - 10) / 15
      0.0000001 * (1 - t) + 0.0000002 * t
    else if api_gravity ≤ 45 then
      let t := (api_gravity - 25) / 20
      0.0000002 * (1 - t) + 0.0000005 * t
    else 0.0000005
  max 0.95 (min 1.05 (1 - alpha * d - beta * d ^ 2))

end SpecModel

/-!  Helper lemmas. -/

/-- Rounding to `n` decimals moves a value by at most half a unit in the last
place. -/
theorem abs_roundTo_sub_le (n : ℕ) (x : ℚ) : |roundTo n x - x| ≤ 1 / (2 * 10 ^ n) := by
  have h10 : (0:ℚ) < 10 ^ n := by positivity
  have h := abs_sub_round (x * 10 ^ n)
  rw [abs_sub_comm] at h
  have : roundTo n x - x = ((round (x * 10 ^ n) : ℚ) - x * 10 ^ n) / 10 ^ n := by
    field_simp [roundTo]
    ring
  rw [this, abs_div, abs_of_pos h10, div_le_div_iff h10 (by positivity)]
  calc |(round (x * 10 ^ n) : ℚ) - x * 10 ^ n| * (2 * 10 ^ n)
      ≤ (1 / 2) * (2 * 10 ^ n) := by
        exact mul_le_mul_of_nonneg_right h (by positivity)
    _ = 1 * 10 ^ n := by ring

/-- The sum of a list of 2-decimal-rounded values differs from the sum of the
unrounded values by at most `length / 200`. -/
theorem abs_sum_roundTo_sub_sum_le (l : List ℚ) :
    |(l.map (roundTo 2)).sum - l.sum| ≤ l.length / 200 := by
  induction l with
  | nil => simp
  | cons x xs ih =>
    have hx := abs_roundTo_sub_le 2 x
    have : (((x :: xs).map (roundTo 2)).sum - (x :: xs).sum) =
        (roundTo 2 x - x) + ((xs.map (roundTo 2)).sum - xs.sum) := by
      simp [List.sum_cons]; ring
    rw [this]
    calc |(roundTo 2 x - x) + ((xs.map (roundTo 2)).sum - xs.sum)|
        ≤ |roundTo 2 x - x| + |(xs.map (roundTo 2)).sum - xs.sum| := abs_add _ _
      _ ≤ 1 / 200 + xs.length / 200 := by
          refine add_le_add ?_ ih
          calc |roundTo 2 x - x| ≤ 1 / (2 * 10 ^ 2) := hx
            _ = 1 / 200 := by norm_num
      _ = (x :: xs).length / 200 := by
          simp [List.length_cons]
          push_cast
          ring

/-- Monotonicity of rounding. -/
theorem roundTo_le_roundTo {n : ℕ} {x y : ℚ} (h : x ≤ y) : roundTo n x ≤ roundTo n y := by
  have h10 : (0:ℚ) < 10 ^ n := by positivity
  have hm : x * 10 ^ n ≤ y * 10 ^ n := by
    exact mul_le_mul_of_nonneg_right h (le_of_lt h10)
  have : round (x * 10 ^ n) ≤ round (y * 10 ^ n) := by
    rw [round_eq, round_eq]
    exact Int.floor_le_floor (by linarith)
  unfold roundTo
  exact div_le_div_of_nonneg_right (by exact_mod_cast this) (le_of_lt h10)

theorem roundTo_zero (n : ℕ) : roundTo n 0 = 0 := by
  simp [roundTo]

/-- Rounding a nonpositive value gives a nonpositive value. -/
theorem roundTo_nonpos {n : ℕ} {x : ℚ} (h : x ≤ 0) : roundTo n x ≤ 0 := by
  have := roundTo_le_roundTo (n := n) h
  simpa [roundTo_zero] using this

/-- Rounding a nonnegative value gives a nonnegative value. -/
theorem roundTo_nonneg {n : ℕ} {x : ℚ} (h : 0 ≤ x) : 0 ≤ roundTo n x := by
  have := roundTo_le_roundTo (n := n) h
  simpa [roundTo_zero] using this

/-!  C6: temperature correction. -/

/-- C6 (counterexample): `calculate_correction` does not literally return the
clamped VCF value — at T = 61°F, API = 20 the clamped formula value has more
than 6 decimal places, and the function returns its 6-decimal rounding
instead. -/
theorem c6_counterexample :
    TemperatureCorrector.calculate_correction 61 20 ≠ SpecModel.vcf_specification 61 20 := by
  norm_num [TemperatureCorrector.calculate_correction,
    TemperatureCorrector.get_correction_coefficients, TemperatureCorrector.STANDARD_TEMP_F,
    TemperatureCorrector.MIN_VCF, TemperatureCorrector.MAX_VCF,
    SpecModel.vcf_specification, roundTo, round_eq]

/-- C6 (amended): `TemperatureCorrector.calculate_correction` returns the
spec's 4-band clamped VCF value rounded to 6 decimal places: for every
observed temperature and API gravity it equals `roundTo 6` of the value
`1 − α·(T − 60) − β·(T − 60)²` clamped to [0.95, 1.05], with (α, β) selected
and linearly interpolated exactly as the claim's band table states. -/
theorem c6_temperature_correction_bands (observed_temp api_gravity : ℚ) :
    TemperatureCorrector.calculate_correction observed_temp api_gravity =
      roundTo 6 (SpecModel.vcf_specification observed_temp api_gravity) := by
  simp only [TemperatureCorrector.calculate_correction,
    TemperatureCorrector.get_correction_coefficients, TemperatureCorrector.STANDARD_TEMP_F,
    TemperatureCorrector.MIN_VCF, TemperatureCorrector.MAX_VCF,
    SpecModel.vcf_specification]
  split_ifs <;> · congr 2 <;> ring

/-!  C7: API gravity correction. -/

/-- C7 (confirmed): `APICorrector.calculate_correction` returns the specific
gravity ratio SG_terminal / SG_observed — equivalently
(observed_api + 131.5) / (terminal_api + 131.5) — clamped to [0.9, 1.15] and
rounded to (carried at) 6 decimal places. -/
theorem c7_api_correction_formula (observed_api terminal_api : ℚ)
    (ho : observed_api + 131.5 ≠ 0) (ht : terminal_api + 131.5 ≠ 0) :
    APICorrector.calculate_correction observed_api terminal_api =
      roundTo 6 (max 0.9 (min 1.15 ((observed_api + 131.5) / (terminal_api + 131.5)))) := by
  have key : 141.5 / (terminal_api + 131.5) / (141.5 / (observed_api + 131.5)) =
      (observed_api + 131.5) / (terminal_api + 131.5) := by
    field_simp
    ring
  simp only [APICorrector.calculate_correction, APICorrector.calculate_specific_gravity,
    APICorrector.MIN_CORRECTION, APICorrector.MAX_CORRECTION, key]

/-- C7 (witness): the theorem instantiated at observed API 35, terminal API 30. -/
theorem c7_api_correction_formula_witness :
    (35 : ℚ) + 131.5 ≠ 0 ∧ (30 : ℚ) + 131.5 ≠ 0 ∧
    APICorrector.calculate_correction 35 30 =
      roundTo 6 (max 0.9 (min 1.15 (((35 : ℚ) + 131.5) / ((30 : ℚ) + 131.5)))) :=
  ⟨by norm_num, by norm_num,
    c7_api_correction_formula 35 30 (by norm_num) (by norm_num)⟩

/-!  C8: the deduction waterfall. -/

/-- C8 (counterexample): at gross = 40.1 bbl, BSW = 0.45%, T = 33°F, observed
API = 44, terminal API = 45... the three returned deduction terms sum to
−6.41 while gross − net = −6.40: the 2-decimal rounding of each returned field
breaks the exact waterfall identity by 0.01. -/
theorem c8_counterexample :
    (NetVolumeCalculator.calculate_net_volume 40.1 0.45 33 44 20).bsw_deduction +
      (NetVolumeCalculator.calculate_net_volume 40.1 0.45 33 44 20).temperature_adjustment +
      (NetVolumeCalculator.calculate_net_volume 40.1 0.45 33 44 20).api_adjustment ≠
    40.1 - (NetVolumeCalculator.calculate_net_volume 40.1 0.45 33 44 20).net_volume := by
  norm_num [NetVolumeCalculator.calculate_net_volume,
    NetVolumeCalculator.calculate_water_cut_factor,
    TemperatureCorrector.calculate_correction,
    TemperatureCorrector.get_correction_coefficients, TemperatureCorrector.STANDARD_TEMP_F,
    TemperatureCorrector.MIN_VCF, TemperatureCorrector.MAX_VCF,
    APICorrector.calculate_correction, APICorrector.calculate_specific_gravity,
    APICorrector.MIN_CORRECTION, APICorrector.MAX_CORRECTION, roundTo, round_eq]

/-- C8 (amended): the three returned deduction terms sum to gross_volume minus
the returned net_volume up to the 2-decimal rounding applied to each of the
four returned figures — within 0.02 bbl; the identity is exact before
rounding. -/
theorem c8_deduction_waterfall (g bsw T o t : ℚ) :
    |(NetVolumeCalculator.calculate_net_volume g bsw T o t).bsw_deduction +
      (NetVolumeCalculator.calculate_net_volume g bsw T o t).temperature_adjustment +
      (NetVolumeCalculator.calculate_net_volume g bsw T o t).api_adjustment -
      (g - (NetVolumeCalculator.calculate_net_volume g bsw T o t).net_volume)| ≤ 0.02 := by
  simp only [NetVolumeCalculator.calculate_net_volume]
  set w := NetVolumeCalculator.calculate_water_cut_factor bsw with hw
  set tc := TemperatureCorrector.calculate_correction T o with htc
  set ac := APICorrector.calculate_correction o t with hac
  have e1 := abs_roundTo_sub_le 2 (g - g * w)
  have e2 := abs_roundTo_sub_le 2 (g * w * (1 - tc))
  have e3 := abs_roundTo_sub_le 2 (g * w * tc * (1 - ac))
  have e4 := abs_roundTo_sub_le 2 (g * w * tc * ac)
  have hsplit :
      roundTo 2 (g - g * w) + roundTo 2 (g * w * (1 - tc)) +
        roundTo 2 (g * w * tc * (1 - ac)) - (g - roundTo 2 (g * w * tc * ac)) =
      (roundTo 2 (g - g * w) - (g - g * w)) +
        ((roundTo 2 (g * w * (1 - tc)) - g * w * (1 - tc)) +
          ((roundTo 2 (g * w * tc * (1 - ac)) - g * w * tc * (1 - ac)) +
            (roundTo 2 (g * w * tc * ac) - g * w * tc * ac))) := by
    ring
  rw [hsplit]
  have b1 := abs_le.mp e1
  have b2 := abs_le.mp e2
  have b3 := abs_le.mp e3
  have b4 := abs_le.mp e4
  rw [abs_le]
  constructor <;> [nlinarith; nlinarith]

/-!  C9: shrinkage factor. -/

/-- C9 (counterexample): with total net 10000 and terminal 10000.01 the
terminal volume exceeds the total net volume, yet the returned shrinkage
factor is 0, not negative — the 2-decimal rounding absorbs the tiny loss. -/
theorem c9_counterexample :
    (10000 : ℚ) < 10000.01 ∧
    ¬ ShrinkageCalculator.calculate_shrinkage_factor 10000 10000.01 < 0 := by
  constructor
  · norm_num
  · norm_num [ShrinkageCalculator.calculate_shrinkage_factor, roundTo, round_eq]

/-- C9 (amended): `calculate_shrinkage_factor` returns
((total_net − terminal)/total_net) × 100 rounded to 2 decimals and returns 0
when total_net is 0 (no division, no failure); for positive total_net the
result is nonpositive whenever terminal ≥ total_net and nonnegative whenever
terminal ≤ total_net (strict signs need not survive the rounding). -/
theorem c9_shrinkage_factor (total_net terminal : ℚ) :
    (ShrinkageCalculator.calculate_shrinkage_factor total_net terminal =
      if total_net = 0 then 0
      else roundTo 2 ((total_net - terminal) / total_net * 100)) ∧
    (0 < total_net →
      (total_net ≤ terminal →
        ShrinkageCalculator.calculate_shrinkage_factor total_net terminal ≤ 0) ∧
      (terminal ≤ total_net →
        0 ≤ ShrinkageCalculator.calculate_shrinkage_factor total_net terminal)) := by
  refine ⟨rfl, fun hpos => ⟨fun hle => ?_, fun hge => ?_⟩⟩
  · rw [ShrinkageCalculator.calculate_shrinkage_factor, if_neg (by linarith)]
    refine roundTo_nonpos ?_
    have hnum : total_net - terminal ≤ 0 := by linarith
    have := div_nonpos_of_nonpos_of_nonneg hnum (le_of_lt hpos)
    linarith [mul_nonpos_of_nonpos_of_nonneg this (by norm_num : (0:ℚ) ≤ 100)]
  · rw [ShrinkageCalculator.calculate_shrinkage_factor, if_neg (by linarith)]
    refine roundTo_nonneg ?_
    have hnum : 0 ≤ total_net - terminal := by linarith
    positivity

/-- C9 (witness): the amended theorem instantiated at (100, 120) and (100, 80). -/
theorem c9_shrinkage_factor_witness :
    ShrinkageCalculator.calculate_shrinkage_factor 100 120 ≤ 0 ∧
    0 ≤ ShrinkageCalculator.calculate_shrinkage_factor 100 80 :=
  ⟨((c9_shrinkage_factor 100 120).2 (by norm_num)).1 (by norm_num),
   ((c9_shrinkage_factor 100 80).2 (by norm_num)).2 (by norm_num)⟩

/-!  Lemmas about partner keys and aggregation. -/

namespace AllocationCalculator

theorem partnerKeys_foldl_mem (l : List ProductionEntry) (acc : List String) (p : String) :
    p ∈ l.foldl (fun acc e => if e.partner ∈ acc then acc else acc ++ [e.partner]) acc ↔
      p ∈ acc ∨ p ∈ l.map (·.partner) := by
  induction l generalizing acc with
  | nil => simp
  | cons e l ih =>
    rw [List.foldl_cons, ih]
    by_cases h : e.partner ∈ acc
    · rw [if_pos h]
      simp only [List.map_cons, List.mem_cons]
      constructor
      · rintro (hp | hp)
        · exact Or.inl hp
        · exact Or.inr (Or.inr hp)
      · rintro (hp | hp | hp)
        · exact Or.inl hp
        · exact Or.inl (hp ▸ h)
        · exact Or.inr hp
    · rw [if_neg h]
      simp only [List.mem_append, List.mem_singleton, List.map_cons, List.mem_cons]
      tauto

theorem mem_partnerKeys (l : List ProductionEntry) (p : String) :
    p ∈ partnerKeys l ↔ p ∈ l.map (·.partner) := by
  rw [partnerKeys, partnerKeys_foldl_mem]
  simp

theorem partnerKeys_foldl_nodup (l : List ProductionEntry) (acc : List String)
    (h : acc.Nodup) :
    (l.foldl (fun acc e => if e.partner ∈ acc then acc else acc ++ [e.partner]) acc).Nodup := by
  induction l generalizing acc with
  | nil => simpa using h
  | cons e l ih =>
    rw [List.foldl_cons]
    by_cases hm : e.partner ∈ acc
    · rw [if_pos hm]; exact ih acc h
    · rw [if_neg hm]
      refine ih _ ?_
      simp [List.nodup_append, h, hm]

theorem partnerKeys_nodup (l : List ProductionEntry) : (partnerKeys l).Nodup :=
  partnerKeys_foldl_nodup l [] List.nodup_nil

theorem partnerKeys_ne_nil (l : List ProductionEntry) (h : l ≠ []) :
    partnerKeys l ≠ [] := by
  match l, h with
  | e :: rest, _ =>
    intro hk
    have : e.partner ∈ partnerKeys (e :: rest) := by
      rw [mem_partnerKeys]; simp
    rw [hk] at this
    exact absurd this (List.not_mem_nil _)

/-- If some partner identifier occurs at least twice, there are strictly fewer
distinct partners than entries, so `calculate` takes the aggregation branch. -/
theorem partnerKeys_length_lt_of_count {l : List ProductionEntry} {p : String}
    (h : 2 ≤ (l.map (·.partner)).count p) :
    (partnerKeys l).length < l.length := by
  have hsub : partnerKeys l ⊆ l.map (·.partner) := fun a ha =>
    (mem_partnerKeys l a).mp ha
  have hsp : List.Subperm (partnerKeys l) (l.map (·.partner)) :=
    (partnerKeys_nodup l).subperm hsub
  have hle : (partnerKeys l).length ≤ (l.map (·.partner)).length := hsp.length_le
  rcases lt_or_eq_of_le hle with hlt | heq
  · simpa using hlt
  · exfalso
    have hperm : List.Perm (partnerKeys l) (l.map (·.partner)) :=
      hsp.perm_of_length_le (le_of_eq heq.symm)
    have hnd : (l.map (·.partner)).Nodup := hperm.nodup_iff.mp (partnerKeys_nodup l)
    have := List.nodup_iff_count_le_one.mp hnd p
    omega

/-- The aggregated entry `aggregate_by_partner` builds for one partner key. -/
def aggEntry (entries : List ProductionEntry) (p : String) : ProductionEntry :=
  { partner := p
    gross_volume_bbl := total_gross_of entries p
    bsw_percent := weighted_bsw_of entries p / total_gross_of entries p
    temperature_degF := weighted_temp_of entries p / total_gross_of entries p
    api_gravity := weighted_api_of entries p / total_gross_of entries p }

theorem aggregate_by_partner_eq (entries : List ProductionEntry) :
    aggregate_by_partner entries = (partnerKeys entries).filterMap (fun p =>
      if 0 < total_gross_of entries p then some (aggEntry entries p) else none) := rfl

theorem filter_filterMap_aggEntry_of_not_mem (entries : List ProductionEntry)
    (p : String) (keys : List String) (hp : p ∉ keys) :
    (keys.filterMap (fun q =>
      if 0 < total_gross_of entries q then some (aggEntry entries q) else none)).filter
        (fun a => decide (a.partner = p)) = [] := by
  rw [List.filter_eq_nil]
  intro a ha
  rcases List.mem_filterMap.mp ha with ⟨q, hq, hfq⟩
  have : a.partner = q := by
    by_cases h : 0 < total_gross_of entries q
    · rw [if_pos h] at hfq
      cases hfq
      rfl
    · rw [if_neg h] at hfq
      cases hfq
  simp only [decide_eq_true_eq]
  intro hap
  exact hp (hap ▸ this ▸ hq)

theorem filter_filterMap_aggEntry (entries : List ProductionEntry) (p : String)
    (keys : List String) (hnd : keys.Nodup) (hp : p ∈ keys)
    (htg : 0 < total_gross_of entries p) :
    (keys.filterMap (fun q =>
      if 0 < total_gross_of entries q then some (aggEntry entries q) else none)).filter
        (fun a => decide (a.partner = p)) = [aggEntry entries p] := by
  induction keys with
  | nil => cases hp
  | cons q keys ih =>
    rcases List.nodup_cons.mp hnd with ⟨hqk, hndk⟩
    rcases List.mem_cons.mp hp with hq | hq
    · subst hq
      rw [List.filterMap_cons, if_pos htg]
      rw [List.filter_cons_of_pos (by simp [aggEntry])]
      rw [filter_filterMap_aggEntry_of_not_mem entries p keys hqk]
    · have hqp : q ≠ p := fun hqe => hqk (hqe ▸ hq)
      rw [List.filterMap_cons]
      by_cases hcase : 0 < total_gross_of entries q
      · rw [if_pos hcase, List.filter_cons_of_neg (by simp [aggEntry, hqp])]
        exact ih hndk hq
      · rw [if_neg hcase]
        exact ih hndk hq

end AllocationCalculator

/-!  C5: aggregation by partner. -/

/-- C5 (counterexample): two entries sharing partner "A" whose gross volumes
sum to 0 produce no aggregated entry at all — not one entry for the unique
partner "A" as the claim requires. -/
theorem c5_counterexample :
    AllocationCalculator.aggregate_by_partner
      [⟨"A", 0, 0, 60, 35⟩, ⟨"A", 0, 0, 60, 35⟩] = [] ∧
    AllocationCalculator.partnerKeys
      [⟨"A", 0, 0, 60, 35⟩, ⟨"A", 0, 0, 60, 35⟩] = ["A"] := by
  constructor <;>
    norm_num [AllocationCalculator.aggregate_by_partner, AllocationCalculator.partnerKeys,
      AllocationCalculator.total_gross_of, AllocationCalculator.entriesOf, List.filter,
      List.filterMap]

/-- C5 (amended): for any partner identifier `p` occurring in the input whose
summed gross volume is positive, `aggregate_by_partner` produces exactly one
entry for `p`: its gross volume is the sum of `p`'s gross volumes and its bsw,
temperature and API gravity are the gross-weighted averages (sum of
value × gross over sum of gross).  A partner whose summed gross volume is not
positive is omitted (see C10). -/
theorem c5_aggregation (entries : List AllocationCalculator.ProductionEntry) (p : String)
    (hp : p ∈ entries.map (·.partner))
    (htg : 0 < AllocationCalculator.total_gross_of entries p) :
    (AllocationCalculator.aggregate_by_partner entries).filter
        (fun a => decide (a.partner = p)) =
      [{ partner := p
         gross_volume_bbl := AllocationCalculator.total_gross_of entries p
         bsw_percent := AllocationCalculator.weighted_bsw_of entries p /
           AllocationCalculator.total_gross_of entries p
         temperature_degF := AllocationCalculator.weighted_temp_of entries p /
           AllocationCalculator.total_gross_of entries p
         api_gravity := AllocationCalculator.weighted_api_of entries p /
           AllocationCalculator.total_gross_of entries p }] := by
  rw [AllocationCalculator.aggregate_by_partner_eq]
  exact AllocationCalculator.filter_filterMap_aggEntry entries p _
    (AllocationCalculator.partnerKeys_nodup entries)
    ((AllocationCalculator.mem_partnerKeys entries p).mpr hp) htg

/-- C5 (witness): partner "A" with gross 100 at 5% BSW and gross 200 at 10%
BSW aggregates to gross 300 with bsw (100×5 + 200×10)/300 = 25/3 ≈ 8.33. -/
theorem c5_aggregation_witness :
    ("A" ∈ ([⟨"A", 100, 5, 60, 35⟩, ⟨"A", 200, 10, 60, 35⟩] :
        List AllocationCalculator.ProductionEntry).map (·.partner)) ∧
    0 < AllocationCalculator.total_gross_of
      [⟨"A", 100, 5, 60, 35⟩, ⟨"A", 200, 10, 60, 35⟩] "A" ∧
    (AllocationCalculator.aggregate_by_partner
      [⟨"A", 100, 5, 60, 35⟩, ⟨"A", 200, 10, 60, 35⟩]).filter
        (fun a => decide (a.partner = "A")) = [⟨"A", 300, 25/3, 60, 35⟩] := by
  refine ⟨by simp, ?_, ?_⟩
  · norm_num [AllocationCalculator.total_gross_of, AllocationCalculator.entriesOf, List.filter]
  · rw [c5_aggregation _ "A" (by simp)
      (by norm_num [AllocationCalculator.total_gross_of, AllocationCalculator.entriesOf,
        List.filter])]
    norm_num [AllocationCalculator.total_gross_of, AllocationCalculator.weighted_bsw_of,
      AllocationCalculator.weighted_temp_of, AllocationCalculator.weighted_api_of,
      AllocationCalculator.entriesOf, List.filter]

/-!  Characterization of `calculate`'s success and failure. -/

namespace AllocationCalculator

/-- An entry passes `validate_inputs` (no error messages). -/
def entryValid (e : ProductionEntry) : Prop :=
  NetVolumeCalculator.validate_inputs e.gross_volume_bbl e.bsw_percent
    e.temperature_degF e.api_gravity = []

instance (e : ProductionEntry) : Decidable (entryValid e) := by
  unfold entryValid; infer_instance

theorem isOk_map {α β : Type} (f : α → β) (x : Except AllocError α) :
    (x.map f).isOk = x.isOk := by
  cases x <;> rfl

theorem computeNetLines_eq_ok_of_valid (ta : ℚ) (es : List ProductionEntry)
    (h : ∀ e ∈ es, entryValid e) :
    computeNetLines ta es = .ok (es.map (netLineOf ta)) := by
  induction es with
  | nil => rfl
  | cons e es ih =>
    have he : entryValid e := h e (List.mem_cons_self e es)
    unfold entryValid at he
    rw [computeNetLines, if_pos he, ih (fun x hx => h x (List.mem_cons_of_mem e hx))]
    rfl

theorem computeNetLines_isOk_iff (ta : ℚ) (es : List ProductionEntry) :
    (computeNetLines ta es).isOk = true ↔ ∀ e ∈ es, entryValid e := by
  induction es with
  | nil => simp [computeNetLines, Except.isOk, Except.toBool]
  | cons e es ih =>
    rw [computeNetLines]
    by_cases he : entryValid e
    · have he' := he
      unfold entryValid at he'
      rw [if_pos he', isOk_map, ih]
      simp [he]
    · have he' : ¬ NetVolumeCalculator.validate_inputs e.gross_volume_bbl e.bsw_percent
          e.temperature_degF e.api_gravity = [] := he
      rw [if_neg he']
      simp only [Except.isOk, Except.toBool, Bool.false_eq_true, false_iff]
      intro hall
      exact he (hall e (List.mem_cons_self e es))

theorem calculate_eq_ok (entries : List ProductionEntry) (rcpt : TerminalReceipt)
    (h1 : entries ≠ []) (h2 : 0 < rcpt.terminal_volume_bbl) (h3 : 0 < rcpt.api_gravity)
    (h4 : ∀ e ∈ effective_entries entries, entryValid e) :
    calculate entries rcpt = .ok (build_result rcpt.terminal_volume_bbl
      ((effective_entries entries).map (netLineOf rcpt.api_gravity))) := by
  rw [calculate, if_neg h1, if_neg (not_le.mpr h2), if_neg (not_le.mpr h3),
    computeNetLines_eq_ok_of_valid rcpt.api_gravity _ h4]

theorem calculate_isOk_iff (entries : List ProductionEntry) (rcpt : TerminalReceipt) :
    (calculate entries rcpt).isOk = true ↔
      entries ≠ [] ∧ 0 < rcpt.terminal_volume_bbl ∧ 0 < rcpt.api_gravity ∧
      ∀ e ∈ effective_entries entries, entryValid e := by
  rw [calculate]
  by_cases h1 : entries = []
  · rw [if_pos h1]
    simp [Except.isOk, Except.toBool, h1]
  · rw [if_neg h1]
    by_cases h2 : rcpt.terminal_volume_bbl ≤ 0
    · rw [if_pos h2]
      simp only [Except.isOk, Except.toBool, Bool.false_eq_true, false_iff]
      rintro ⟨-, h2', -, -⟩
      exact absurd h2 (not_le.mpr h2')
    · rw [if_neg h2]
      by_cases h3 : rcpt.api_gravity ≤ 0
      · rw [if_pos h3]
        simp only [Except.isOk, Except.toBool, Bool.false_eq_true, false_iff]
        rintro ⟨-, -, h3', -⟩
        exact absurd h3 (not_le.mpr h3')
      · rw [if_neg h3]
        have hok := computeNetLines_isOk_iff rcpt.api_gravity (effective_entries entries)
        cases hcnl : computeNetLines rcpt.api_gravity (effective_entries entries) with
        | error err =>
          rw [hcnl] at hok
          simp only [Except.isOk, Except.toBool, Bool.false_eq_true, false_iff] at hok ⊢
          rintro ⟨-, -, -, hall⟩
          exact hok hall
        | ok lines =>
          rw [hcnl] at hok
          simp only [Except.isOk, Except.toBool, true_iff] at hok
          simp only [Except.isOk, Except.toBool, true_iff]
          exact ⟨h1, not_le.mp h2, not_le.mp h3, hok⟩

theorem calculate_ok_inversion (entries : List ProductionEntry) (rcpt : TerminalReceipt)
    (r : AllocationResult) (h : calculate entries rcpt = .ok r) :
    r = build_result rcpt.terminal_volume_bbl
      ((effective_entries entries).map (netLineOf rcpt.api_gravity)) := by
  have hOk : (calculate entries rcpt).isOk = true := by rw [h]; rfl
  rcases (calculate_isOk_iff entries rcpt).mp hOk with ⟨h1, h2, h3, h4⟩
  rw [calculate_eq_ok entries rcpt h1 h2 h3 h4] at h
  exact (Except.ok.inj h).symm

end AllocationCalculator

/-!  C4: the failure contract of `calculate`. -/

/-- C4 (counterexample): an invalid raw entry (gross −50 for partner "A") does
not abort the batch: a second entry for the same partner makes `calculate`
aggregate first (summed gross 100 is valid), so the call completes. -/
theorem c4_counterexample :
    NetVolumeCalculator.validate_inputs (-50) 0 60 35 ≠ [] ∧
    (AllocationCalculator.calculate
      [⟨"A", -50, 0, 60, 35⟩, ⟨"A", 150, 0, 60, 35⟩] ⟨1000, 35⟩).isOk = true := by
  constructor
  · norm_num [NetVolumeCalculator.validate_inputs, TemperatureCorrector.validate_temperature,
      APICorrector.validate_api_gravity]
  · rw [AllocationCalculator.calculate_isOk_iff]
    refine ⟨by simp, by norm_num, by norm_num, ?_⟩
    intro e he
    have heff : AllocationCalculator.effective_entries
        [⟨"A", -50, 0, 60, 35⟩, ⟨"A", 150, 0, 60, 35⟩] = [⟨"A", 100, 0, 60, 35⟩] := by
      norm_num [AllocationCalculator.effective_entries, AllocationCalculator.partnerKeys,
        AllocationCalculator.aggregate_by_partner, AllocationCalculator.total_gross_of,
        AllocationCalculator.weighted_bsw_of, AllocationCalculator.weighted_temp_of,
        AllocationCalculator.weighted_api_of, AllocationCalculator.entriesOf,
        List.filter, List.filterMap]
    rw [heff] at he
    rw [List.mem_singleton.mp he]
    norm_num [AllocationCalculator.entryValid, NetVolumeCalculator.validate_inputs,
      TemperatureCorrector.validate_temperature, APICorrector.validate_api_gravity]

/-- C4 (amended): `calculate` fails with an input error if and only if the
entry list is empty, or terminal_volume_bbl ≤ 0, or terminal api_gravity ≤ 0,
or some EFFECTIVE entry — an aggregated entry when several entries share a
partner, a raw entry otherwise — fails `validate_inputs`; on every other input
the call returns a complete result.  Validation runs after aggregation, so a
single invalid raw entry need not abort the batch. -/
theorem c4_error_contract (entries : List AllocationCalculator.ProductionEntry)
    (rcpt : AllocationCalculator.TerminalReceipt) :
    (AllocationCalculator.calculate entries rcpt).isOk = false ↔
      entries = [] ∨ rcpt.terminal_volume_bbl ≤ 0 ∨ rcpt.api_gravity ≤ 0 ∨
      ∃ e ∈ AllocationCalculator.effective_entries entries,
        NetVolumeCalculator.validate_inputs e.gross_volume_bbl e.bsw_percent
          e.temperature_degF e.api_gravity ≠ [] := by
  have h := AllocationCalculator.calculate_isOk_iff entries rcpt
  rw [Bool.eq_false_iff, Ne, h]
  constructor
  · intro hno
    by_contra hcon
    push_neg at hcon
    obtain ⟨h1, h2, h3, h4⟩ := hcon
    exact hno ⟨h1, h2, h3, fun e he => h4 e he⟩
  · rintro (h1 | h2 | h3 | ⟨e, he, hv⟩) ⟨g1, g2, g3, g4⟩
    · exact g1 h1
    · exact absurd h2 (not_le.mpr g2)
    · exact absurd h3 (not_le.mpr g3)
    · exact hv (g4 e he)

/-!  Partner-tracking lemmas for the allocation pipeline (C10). -/

namespace AllocationCalculator

theorem mem_map_partner_aggregate (entries : List ProductionEntry) (p : String) :
    p ∈ (aggregate_by_partner entries).map (·.partner) ↔
      p ∈ partnerKeys entries ∧ 0 < total_gross_of entries p := by
  rw [aggregate_by_partner_eq]
  constructor
  · intro h
    rcases List.mem_map.mp h with ⟨a, ha, hap⟩
    rcases List.mem_filterMap.mp ha with ⟨q, hq, hfq⟩
    by_cases hpos : 0 < total_gross_of entries q
    · rw [if_pos hpos] at hfq
      have haq : a = aggEntry entries q := (Option.some.inj hfq).symm
      have haqp : a.partner = q := by rw [haq]; rfl
      have hqp : q = p := by rw [← haqp, hap]
      rw [← hqp]
      exact ⟨hq, hpos⟩
    · rw [if_neg hpos] at hfq
      cases hfq
  · rintro ⟨hq, hpos⟩
    refine List.mem_map.mpr ⟨aggEntry entries p, ?_, rfl⟩
    exact List.mem_filterMap.mpr ⟨p, hq, by rw [if_pos hpos]⟩

theorem map_line_addToNth (d : ℚ) (i : ℕ) (l : List FinAlloc) :
    (addToNth d i l).map (·.line) = l.map (·.line) := by
  induction l generalizing i with
  | nil => cases i <;> rfl
  | cons a l ih =>
    cases i with
    | zero => rfl
    | succ n => simp [addToNth, ih]

theorem map_partner_map_finalRecord (tv : ℚ) (l : List FinAlloc) :
    (l.map (finalRecord tv)).map (·.partner) = (l.map (·.line)).map (·.partner) := by
  rw [List.map_map, List.map_map]
  rfl

theorem reconcile_map_partner (tv : ℚ) (allocs : List FinAlloc) :
    (reconcile tv allocs).map (·.partner) = allocs.map (·.line.partner) := by
  rw [reconcile]
  split_ifs with h
  · rw [map_partner_map_finalRecord, map_line_addToNth, List.map_map]
    rfl
  · rw [map_partner_map_finalRecord, List.map_map]
    rfl

theorem step4_line_mem (tv tn : ℚ) (lines : List NetLine) (fa : FinAlloc)
    (h : fa ∈ step4 tv tn lines) : fa.line ∈ lines := by
  rw [step4] at h
  rcases List.mem_append.mp h with hc | hu
  · rcases List.mem_map.mp hc with ⟨l, hl, hfl⟩
    have hfal : fa.line = l := by rw [← hfl]
    rw [hfal]
    exact List.mem_of_mem_filter hl
  · rcases List.mem_map.mp hu with ⟨l, hl, hfl⟩
    have hfal : fa.line = l := by
      rw [← hfl]
      by_cases ht : 0 < total_uncapped_net_volume tn lines
      · rw [if_pos ht]
      · rw [if_neg ht]
    rw [hfal]
    exact List.mem_of_mem_filter hl

theorem netLineOf_partner (ta : ℚ) (e : ProductionEntry) :
    (netLineOf ta e).partner = e.partner := rfl

theorem effective_entries_of_dup {entries : List ProductionEntry} {p : String}
    (h : 2 ≤ (entries.map (·.partner)).count p) :
    effective_entries entries = aggregate_by_partner entries := by
  rw [effective_entries, if_pos]
  have := partnerKeys_length_lt_of_count h
  simpa using this

end AllocationCalculator

/-!  C10: partners dropped by aggregation. -/

/-- C10 (counterexample): partner "B" appears twice with summed gross 0 and is
silently dropped, but `calculate` does not complete without error on every
such input: here partner "A"'s aggregated entry fails validation (bsw 150), so
the batch still aborts. -/
theorem c10_counterexample :
    2 ≤ ((([⟨"B", 0, 0, 60, 35⟩, ⟨"B", 0, 0, 60, 35⟩, ⟨"A", 10, 150, 60, 35⟩] :
        List AllocationCalculator.ProductionEntry).map (·.partner)).count "B") ∧
    AllocationCalculator.total_gross_of
      [⟨"B", 0, 0, 60, 35⟩, ⟨"B", 0, 0, 60, 35⟩, ⟨"A", 10, 150, 60, 35⟩] "B" ≤ 0 ∧
    (AllocationCalculator.calculate
      [⟨"B", 0, 0, 60, 35⟩, ⟨"B", 0, 0, 60, 35⟩, ⟨"A", 10, 150, 60, 35⟩]
      ⟨1000, 35⟩).isOk = false := by
  refine ⟨?_, ?_, ?_⟩
  · simp [List.count_cons]
  · norm_num [AllocationCalculator.total_gross_of, AllocationCalculator.entriesOf,
      List.filter_cons, decide_eq_true_eq, (by decide : ¬("A" = "B"))]
  · rw [Bool.eq_false_iff, Ne]
    intro hok
    obtain ⟨-, -, -, h4⟩ := (AllocationCalculator.calculate_isOk_iff _ _).mp hok
    have hkeys : AllocationCalculator.partnerKeys
        [⟨"B", 0, 0, 60, 35⟩, ⟨"B", 0, 0, 60, 35⟩, ⟨"A", 10, 150, 60, 35⟩] = ["B", "A"] := by
      decide
    have heff : AllocationCalculator.effective_entries
        [⟨"B", 0, 0, 60, 35⟩, ⟨"B", 0, 0, 60, 35⟩, ⟨"A", 10, 150, 60, 35⟩] =
        [⟨"A", 10, 150, 60, 35⟩] := by
      rw [AllocationCalculator.effective_entries, AllocationCalculator.aggregate_by_partner_eq,
        hkeys]
      norm_num [AllocationCalculator.aggEntry, AllocationCalculator.total_gross_of,
        AllocationCalculator.weighted_bsw_of, AllocationCalculator.weighted_temp_of,
        AllocationCalculator.weighted_api_of, AllocationCalculator.entriesOf,
        List.filter_cons, List.filterMap_cons, decide_eq_true_eq,
        (by decide : ¬("A" = "B")), (by decide : ¬("B" = "A"))]
    rw [heff] at h4
    have := h4 ⟨"A", 10, 150, 60, 35⟩ (List.mem_singleton.mpr rfl)
    revert this
    norm_num [AllocationCalculator.entryValid, NetVolumeCalculator.validate_inputs,
      TemperatureCorrector.validate_temperature, APICorrector.validate_api_gravity]

/-- C10 (amended): if a partner appears on more than one entry and its summed
gross volume is ≤ 0, aggregation omits that partner, and any successful
`calculate` run returns no record for it; provided the terminal receipt passes
its checks and every remaining aggregated entry passes validation, `calculate`
does complete without error. -/
theorem c10_dropped_partner (entries : List AllocationCalculator.ProductionEntry)
    (rcpt : AllocationCalculator.TerminalReceipt) (p : String)
    (hcount : 2 ≤ (entries.map (·.partner)).count p)
    (hng : AllocationCalculator.total_gross_of entries p ≤ 0) :
    p ∉ (AllocationCalculator.aggregate_by_partner entries).map (·.partner) ∧
    (∀ r, AllocationCalculator.calculate entries rcpt = .ok r →
      ∀ rec ∈ r.allocation_results, rec.partner ≠ p) ∧
    (0 < rcpt.terminal_volume_bbl → 0 < rcpt.api_gravity →
      (∀ e ∈ AllocationCalculator.aggregate_by_partner entries,
        AllocationCalculator.entryValid e) →
      (AllocationCalculator.calculate entries rcpt).isOk = true) := by
  have hnotagg : p ∉ (AllocationCalculator.aggregate_by_partner entries).map (·.partner) := by
    intro hmem
    exact absurd ((AllocationCalculator.mem_map_partner_aggregate entries p).mp hmem).2
      (not_lt.mpr hng)
  have heff := AllocationCalculator.effective_entries_of_dup hcount
  refine ⟨hnotagg, ?_, ?_⟩
  · intro r hr rec hrec
    have hbuild := AllocationCalculator.calculate_ok_inversion entries rcpt r hr
    intro hp
    have hrecs : r.allocation_results =
        AllocationCalculator.reconcile rcpt.terminal_volume_bbl
          (AllocationCalculator.step4 rcpt.terminal_volume_bbl
            ((((AllocationCalculator.effective_entries entries).map
              (AllocationCalculator.netLineOf rcpt.api_gravity)).map (·.net_volume)).sum)
            ((AllocationCalculator.effective_entries entries).map
              (AllocationCalculator.netLineOf rcpt.api_gravity))) := by
      rw [hbuild]
      rfl
    have hpmem : p ∈ r.allocation_results.map (·.partner) :=
      List.mem_map.mpr ⟨rec, hrec, hp⟩
    rw [hrecs, AllocationCalculator.reconcile_map_partner] at hpmem
    rcases List.mem_map.mp hpmem with ⟨fa, hfa, hfap⟩
    have hline := AllocationCalculator.step4_line_mem _ _ _ fa hfa
    rcases List.mem_map.mp hline with ⟨e, he, hel⟩
    have hep : e.partner = p := by
      rw [← hfap, ← hel, AllocationCalculator.netLineOf_partner]
    rw [heff] at he
    exact hnotagg (List.mem_map.mpr ⟨e, he, hep⟩)
  · intro h2 h3 hvalid
    have h1 : entries ≠ [] := by
      intro hnil
      rw [hnil] at hcount
      simp at hcount
    rw [AllocationCalculator.calculate_isOk_iff]
    refine ⟨h1, h2, h3, ?_⟩
    rw [heff]
    exact hvalid

/-- C10 (witness): partner "B" twice with gross 0 plus a valid partner "A";
the run completes and "B" gets no aggregated entry. -/
theorem c10_dropped_partner_witness :
    2 ≤ ((([⟨"B", 0, 0, 60, 35⟩, ⟨"B", 0, 0, 60, 35⟩, ⟨"A", 10, 2, 60, 35⟩] :
        List AllocationCalculator.ProductionEntry).map (·.partner)).count "B") ∧
    AllocationCalculator.total_gross_of
      [⟨"B", 0, 0, 60, 35⟩, ⟨"B", 0, 0, 60, 35⟩, ⟨"A", 10, 2, 60, 35⟩] "B" ≤ 0 ∧
    "B" ∉ (AllocationCalculator.aggregate_by_partner
      [⟨"B", 0, 0, 60, 35⟩, ⟨"B", 0, 0, 60, 35⟩, ⟨"A", 10, 2, 60, 35⟩]).map (·.partner) ∧
    (AllocationCalculator.calculate
      [⟨"B", 0, 0, 60, 35⟩, ⟨"B", 0, 0, 60, 35⟩, ⟨"A", 10, 2, 60, 35⟩]
      ⟨1000, 35⟩).isOk = true := by
  have h1 : 2 ≤ ((([⟨"B", 0, 0, 60, 35⟩, ⟨"B", 0, 0, 60, 35⟩, ⟨"A", 10, 2, 60, 35⟩] :
      List AllocationCalculator.ProductionEntry).map (·.partner)).count "B") := by
    simp [List.count_cons]
  have h2 : AllocationCalculator.total_gross_of
      [⟨"B", 0, 0, 60, 35⟩, ⟨"B", 0, 0, 60, 35⟩, ⟨"A", 10, 2, 60, 35⟩] "B" ≤ 0 := by
    norm_num [AllocationCalculator.total_gross_of, AllocationCalculator.entriesOf,
      List.filter_cons, decide_eq_true_eq, (by decide : ¬("A" = "B"))]
  have hagg : AllocationCalculator.aggregate_by_partner
      [⟨"B", 0, 0, 60, 35⟩, ⟨"B", 0, 0, 60, 35⟩, ⟨"A", 10, 2, 60, 35⟩] =
      [⟨"A", 10, 2, 60, 35⟩] := by
    rw [AllocationCalculator.aggregate_by_partner_eq,
      (by decide : AllocationCalculator.partnerKeys
        [⟨"B", 0, 0, 60, 35⟩, ⟨"B", 0, 0, 60, 35⟩, ⟨"A", 10, 2, 60, 35⟩] = ["B", "A"])]
    norm_num [AllocationCalculator.aggEntry, AllocationCalculator.total_gross_of,
      AllocationCalculator.weighted_bsw_of, AllocationCalculator.weighted_temp_of,
      AllocationCalculator.weighted_api_of, AllocationCalculator.entriesOf,
      List.filter_cons, List.filterMap_cons, decide_eq_true_eq,
      (by decide : ¬("A" = "B")), (by decide : ¬("B" = "A"))]
  refine ⟨h1, h2, (c10_dropped_partner _ ⟨1000, 35⟩ "B" h1 h2).1,
    (c10_dropped_partner _ ⟨1000, 35⟩ "B" h1 h2).2.2 (by norm_num) (by norm_num) ?_⟩
  rw [hagg]
  intro e he
  rw [List.mem_singleton.mp he]
  norm_num [AllocationCalculator.entryValid, NetVolumeCalculator.validate_inputs,
    TemperatureCorrector.validate_temperature, APICorrector.validate_api_gravity]

/-!  Step-4 helper lemmas and evaluation lemmas (C2, C3, C1). -/

namespace AllocationCalculator

theorem sum_map_const {α : Type} (l : List α) (c : ℚ) :
    (l.map (fun _ => c)).sum = l.length * c := by
  induction l with
  | nil => simp
  | cons a l ih => simp [ih]; ring

theorem total_capped_allocation_eq (tv tn : ℚ) (lines : List NetLine) :
    total_capped_allocation tv tn lines =
      (cappedLines tn lines).length * (tv * (MAX_PERCENTAGE / 100)) := by
  rw [total_capped_allocation, sum_map_const]

/-- Temperature correction is exactly 1 at the standard temperature. -/
theorem calculate_correction_at_standard (a : ℚ) :
    TemperatureCorrector.calculate_correction 60 a = 1 := by
  simp only [TemperatureCorrector.calculate_correction, TemperatureCorrector.STANDARD_TEMP_F]
  norm_num [TemperatureCorrector.MIN_VCF, TemperatureCorrector.MAX_VCF, roundTo, round_eq]

/-- API correction is exactly 1 when observed and terminal API coincide. -/
theorem calculate_correction_self (a : ℚ) (h : a + 131.5 ≠ 0) :
    APICorrector.calculate_correction a a = 1 := by
  have hsg : APICorrector.calculate_specific_gravity a ≠ 0 := by
    rw [APICorrector.calculate_specific_gravity]
    exact div_ne_zero (by norm_num) h
  simp only [APICorrector.calculate_correction, div_self hsg]
  norm_num [APICorrector.MIN_CORRECTION, APICorrector.MAX_CORRECTION, roundTo, round_eq]

/-- The net line of an entry with no BSW, standard temperature and API equal
to the terminal's 35: every correction factor is 1. -/
theorem netLineOf_std (p : String) (g : ℚ) :
    netLineOf 35 ⟨p, g, 0, 60, 35⟩ = ⟨p, g, roundTo 2 g, 1, 1, 1, 0, 0, 0⟩ := by
  simp only [netLineOf, NetVolumeCalculator.calculate_net_volume,
    calculate_correction_at_standard, calculate_correction_self 35 (by norm_num)]
  norm_num [NetVolumeCalculator.calculate_water_cut_factor, roundTo, round_eq]

theorem largestIdx_singleton (x : ℚ) : largestIdx [x] = 0 := by
  simp [largestIdx, List.enum, List.enumFrom]

end AllocationCalculator

/-!  C2: the capping policy of step 4. -/

/-- The production entries of the C2 counterexample: partner "A" holds all but
a sliver of the net volume, so its raw percentage exceeds the cap. -/
def c2entries : List AllocationCalculator.ProductionEntry :=
  [⟨"A", 10000000, 0, 60, 35⟩, ⟨"B", 0.01, 0, 60, 35⟩]

/-- The net-volume lines `calculate` derives from `c2entries`. -/
def c2lines : List AllocationCalculator.NetLine :=
  c2entries.map (AllocationCalculator.netLineOf 35)

/-- The total net volume of `c2lines`. -/
def c2totalNet : ℚ := (c2lines.map (·.net_volume)).sum

theorem c2lines_eq :
    c2lines = [⟨"A", 10000000, 10000000, 1, 1, 1, 0, 0, 0⟩,
      ⟨"B", 0.01, 0.01, 1, 1, 1, 0, 0, 0⟩] := by
  rw [c2lines, c2entries]
  rw [List.map_cons, List.map_cons, List.map_nil,
    AllocationCalculator.netLineOf_std, AllocationCalculator.netLineOf_std]
  norm_num [roundTo, round_eq]

theorem c2totalNet_eq : c2totalNet = 10000000.01 := by
  rw [c2totalNet, c2lines_eq]
  norm_num

/-- C2 (counterexample): on `c2entries` the final percentages that step 4
actually produces, `[99.99999, 0.00001]`, differ from the percentages of the
spec's cap-then-normalize policy applied to the raw percentages (partner "B"
would get about 0.0000001 there). -/
theorem c2_counterexample :
    (AllocationCalculator.step4 1000000 c2totalNet c2lines).map (·.final_percentage) ≠
      SpecModel.cap_then_normalize (c2lines.map
        (fun l => AllocationCalculator.rawPct c2totalNet l.net_volume)) := by
  rw [c2lines_eq, c2totalNet_eq]
  norm_num [AllocationCalculator.step4, AllocationCalculator.cappedLines,
    AllocationCalculator.uncappedLines, AllocationCalculator.total_capped_allocation,
    AllocationCalculator.total_uncapped_net_volume, AllocationCalculator.rawPct,
    AllocationCalculator.MAX_PERCENTAGE, SpecModel.cap_then_normalize,
    List.filter_cons, decide_eq_true_eq]

/-- C2 (amended): step 4 implements cap-then-redistribute, not
cap-then-normalize: a partner whose raw percentage exceeds
MAX_PERCENTAGE = 99.99999 is capped at exactly that percentage and allocated
terminal_volume × MAX_PERCENTAGE/100; each uncapped partner receives a share
of the remaining volume proportional to its net volume (its percentage derived
from its allocated volume), or 0 when the uncapped partners have no net
volume. -/
theorem c2_cap_then_redistribute (tv tn : ℚ) (lines : List AllocationCalculator.NetLine)
    (fa : AllocationCalculator.FinAlloc)
    (hfa : fa ∈ AllocationCalculator.step4 tv tn lines) :
    fa.raw_percentage = AllocationCalculator.rawPct tn fa.line.net_volume ∧
    (fa.capped = true →
      AllocationCalculator.MAX_PERCENTAGE < fa.raw_percentage ∧
      fa.final_percentage = AllocationCalculator.MAX_PERCENTAGE ∧
      fa.final_allocated = tv * (AllocationCalculator.MAX_PERCENTAGE / 100)) ∧
    (fa.capped = false →
      fa.raw_percentage ≤ AllocationCalculator.MAX_PERCENTAGE ∧
      ((0 < AllocationCalculator.total_uncapped_net_volume tn lines →
        fa.final_allocated =
          (tv - AllocationCalculator.total_capped_allocation tv tn lines) *
            (fa.line.net_volume / AllocationCalculator.total_uncapped_net_volume tn lines) ∧
        fa.final_percentage = fa.final_allocated / tv * 100) ∧
       (¬ 0 < AllocationCalculator.total_uncapped_net_volume tn lines →
        fa.final_allocated = 0 ∧ fa.final_percentage = 0))) := by
  rw [AllocationCalculator.step4] at hfa
  rcases List.mem_append.mp hfa with hc | hu
  · rcases List.mem_map.mp hc with ⟨l, hl, hfl⟩
    have hcond : AllocationCalculator.MAX_PERCENTAGE <
        AllocationCalculator.rawPct tn l.net_volume :=
      of_decide_eq_true (List.mem_filter.mp hl).2
    subst hfl
    refine ⟨rfl, fun _ => ⟨hcond, rfl, rfl⟩, fun hfalse => ?_⟩
    cases hfalse
  · rcases List.mem_map.mp hu with ⟨l, hl, hfl⟩
    have hcond : ¬ AllocationCalculator.MAX_PERCENTAGE <
        AllocationCalculator.rawPct tn l.net_volume := by
      have := (List.mem_filter.mp hl).2
      simpa using this
    by_cases htun : 0 < AllocationCalculator.total_uncapped_net_volume tn lines
    · rw [if_pos htun] at hfl
      subst hfl
      refine ⟨rfl, ?_, ?_⟩
      · intro h
        exact absurd h (by simp)
      · intro _
        exact ⟨not_lt.mp hcond, fun _ => ⟨rfl, rfl⟩, fun hcontra => absurd htun hcontra⟩
    · rw [if_neg htun] at hfl
      subst hfl
      refine ⟨rfl, ?_, ?_⟩
      · intro h
        exact absurd h (by simp)
      · intro _
        exact ⟨not_lt.mp hcond, fun hcontra => absurd hcontra htun, fun _ => ⟨rfl, rfl⟩⟩

/-- The single capped line used by the C2 and C3 witnesses. -/
def capLine : AllocationCalculator.NetLine := ⟨"A", 100, 100, 1, 1, 1, 0, 0, 0⟩

/-- The step-4 outcome of `capLine` alone: capped at MAX_PERCENTAGE. -/
def capAlloc : AllocationCalculator.FinAlloc :=
  ⟨capLine, 100, true, AllocationCalculator.MAX_PERCENTAGE,
    1000 * (AllocationCalculator.MAX_PERCENTAGE / 100)⟩

theorem step4_capLine_eval :
    AllocationCalculator.step4 1000 100 [capLine] = [capAlloc] := by
  norm_num [AllocationCalculator.step4, AllocationCalculator.cappedLines,
    AllocationCalculator.uncappedLines, AllocationCalculator.total_capped_allocation,
    AllocationCalculator.total_uncapped_net_volume, AllocationCalculator.rawPct,
    AllocationCalculator.MAX_PERCENTAGE, capLine, capAlloc,
    List.filter_cons, decide_eq_true_eq]

/-- C2 (witness): the amended theorem instantiated on the single-partner
capped input. -/
theorem c2_cap_then_redistribute_witness :
    capAlloc ∈ AllocationCalculator.step4 1000 100 [capLine] ∧
    AllocationCalculator.MAX_PERCENTAGE < capAlloc.raw_percentage ∧
    capAlloc.final_percentage = AllocationCalculator.MAX_PERCENTAGE ∧
    capAlloc.final_allocated = 1000 * (AllocationCalculator.MAX_PERCENTAGE / 100) := by
  have hm : capAlloc ∈ AllocationCalculator.step4 1000 100 [capLine] := by
    rw [step4_capLine_eval]
    exact List.mem_singleton.mpr rfl
  exact ⟨hm, (c2_cap_then_redistribute 1000 100 [capLine] capAlloc hm).2.1 rfl⟩

/-!  C3: the percentage cap. -/

theorem effective_entries_singleton (e : AllocationCalculator.ProductionEntry) :
    AllocationCalculator.effective_entries [e] = [e] := by
  rw [AllocationCalculator.effective_entries, if_neg]
  simp [AllocationCalculator.partnerKeys]

/-- C3 (counterexample): a single partner holds 100% of the net volume; after
the final reconciliation the returned record's `percentage` field is 100,
which exceeds 99.99999 — the cap does not survive the last recomputation. -/
theorem c3_counterexample :
    (AllocationCalculator.calculate [⟨"A", 1000, 0, 60, 35⟩] ⟨1000, 35⟩).map
        (fun r => r.allocation_results.map (·.percentage)) = .ok [100] ∧
    ¬ ((100 : ℚ) ≤ AllocationCalculator.MAX_PERCENTAGE) := by
  constructor
  · rw [AllocationCalculator.calculate_eq_ok _ _ (by simp) (by norm_num) (by norm_num)
      (by
        rw [effective_entries_singleton]
        intro e he
        rw [List.mem_singleton.mp he]
        norm_num [AllocationCalculator.entryValid, NetVolumeCalculator.validate_inputs,
          TemperatureCorrector.validate_temperature, APICorrector.validate_api_gravity])]
    rw [effective_entries_singleton]
    have hline : ([⟨"A", 1000, 0, 60, 35⟩] :
        List AllocationCalculator.ProductionEntry).map (AllocationCalculator.netLineOf 35) =
        [⟨"A", 1000, 1000, 1, 1, 1, 0, 0, 0⟩] := by
      rw [List.map_cons, List.map_nil, AllocationCalculator.netLineOf_std]
      norm_num [roundTo, round_eq]
    rw [hline]
    have hstep : AllocationCalculator.step4 1000 1000
        [⟨"A", 1000, 1000, 1, 1, 1, 0, 0, 0⟩] =
        [⟨⟨"A", 1000, 1000, 1, 1, 1, 0, 0, 0⟩, 100, true,
          AllocationCalculator.MAX_PERCENTAGE,
          1000 * (AllocationCalculator.MAX_PERCENTAGE / 100)⟩] := by
      norm_num [AllocationCalculator.step4, AllocationCalculator.cappedLines,
        AllocationCalculator.uncappedLines, AllocationCalculator.total_capped_allocation,
        AllocationCalculator.total_uncapped_net_volume, AllocationCalculator.rawPct,
        AllocationCalculator.MAX_PERCENTAGE, List.filter_cons, decide_eq_true_eq]
    norm_num [AllocationCalculator.build_result, hstep, AllocationCalculator.reconcile,
      AllocationCalculator.finalRecord, AllocationCalculator.largestIdx_singleton,
      AllocationCalculator.addToNth, AllocationCalculator.MAX_PERCENTAGE,
      Except.map, roundTo, round_eq]
  · norm_num [AllocationCalculator.MAX_PERCENTAGE]

/-- C3 (amended): before the final reconciliation rounds volumes and
recomputes percentages, no partner's step-4 percentage exceeds
MAX_PERCENTAGE = 99.99999, for any terminal volume > 0 and nonnegative net
volumes; the cap can be exceeded (reaching 100) only by the percentage field
recomputed from the reconciled allocated volume. -/
theorem c3_cap_before_reconciliation (tv tn : ℚ)
    (lines : List AllocationCalculator.NetLine)
    (htv : 0 < tv) (hnn : ∀ l ∈ lines, 0 ≤ l.net_volume)
    (htn : tn = (lines.map (·.net_volume)).sum)
    (fa : AllocationCalculator.FinAlloc)
    (hfa : fa ∈ AllocationCalculator.step4 tv tn lines) :
    fa.final_percentage ≤ AllocationCalculator.MAX_PERCENTAGE := by
  rw [AllocationCalculator.step4] at hfa
  rcases List.mem_append.mp hfa with hc | hu
  · rcases List.mem_map.mp hc with ⟨l, hl, hfl⟩
    subst hfl
    exact le_refl _
  · rcases List.mem_map.mp hu with ⟨l, hl, hfl⟩
    have hcond : ¬ AllocationCalculator.MAX_PERCENTAGE <
        AllocationCalculator.rawPct tn l.net_volume := by
      simpa using (List.mem_filter.mp hl).2
    have hlmem : l ∈ lines := List.mem_of_mem_filter hl
    by_cases htun : 0 < AllocationCalculator.total_uncapped_net_volume tn lines
    · rw [if_pos htun] at hfl
      subst hfl
      show (tv - AllocationCalculator.total_capped_allocation tv tn lines) *
        (l.net_volume / AllocationCalculator.total_uncapped_net_volume tn lines) / tv * 100 ≤
        AllocationCalculator.MAX_PERCENTAGE
      have hn0 : 0 ≤ l.net_volume := hnn l hlmem
      have hnle : l.net_volume ≤ AllocationCalculator.total_uncapped_net_volume tn lines := by
        refine List.single_le_sum ?_ _ ?_
        · intro x hx
          rcases List.mem_map.mp hx with ⟨l', hl', rfl⟩
          exact hnn l' (List.mem_of_mem_filter hl')
        · exact List.mem_map_of_mem (·.net_volume) hl
      have hr0 : 0 ≤ l.net_volume / AllocationCalculator.total_uncapped_net_volume tn lines :=
        div_nonneg hn0 (le_of_lt htun)
      have hr1 : l.net_volume / AllocationCalculator.total_uncapped_net_volume tn lines ≤ 1 :=
        (div_le_one htun).mpr hnle
      have htca := AllocationCalculator.total_capped_allocation_eq tv tn lines
      have htv' : tv ≠ 0 := ne_of_gt htv
      rcases Nat.eq_zero_or_pos (AllocationCalculator.cappedLines tn lines).length
        with hk0 | hk1
      · -- no partner was capped: the final percentage is the raw percentage
        have hcap_nil : AllocationCalculator.cappedLines tn lines = [] :=
          List.length_eq_zero.mp hk0
        have hunc_all : AllocationCalculator.uncappedLines tn lines = lines := by
          rw [AllocationCalculator.uncappedLines, List.filter_eq_self]
          intro a ha
          have hnotc : ¬ (decide (AllocationCalculator.MAX_PERCENTAGE <
              AllocationCalculator.rawPct tn a.net_volume) = true) := by
            intro hdec
            have : a ∈ AllocationCalculator.cappedLines tn lines :=
              List.mem_filter.mpr ⟨ha, hdec⟩
            rw [hcap_nil] at this
            exact absurd this (List.not_mem_nil a)
          simpa using hnotc
        have htun_tn : AllocationCalculator.total_uncapped_net_volume tn lines = tn := by
          rw [AllocationCalculator.total_uncapped_net_volume, hunc_all, htn]
        have htn_pos : 0 < tn := htun_tn ▸ htun
        have htca0 : AllocationCalculator.total_capped_allocation tv tn lines = 0 := by
          rw [htca, hcap_nil]
          simp
        rw [htca0, htun_tn, sub_zero]
        have heq : tv * (l.net_volume / tn) / tv * 100 = l.net_volume / tn * 100 := by
          field_simp
          ring
        rw [heq]
        have hraw : AllocationCalculator.rawPct tn l.net_volume =
            l.net_volume / tn * 100 := by
          rw [AllocationCalculator.rawPct, if_pos htn_pos]
        rw [← hraw]
        exact not_lt.mp hcond
      · -- at least one partner was capped: at most 0.00001% remains
        have hk1' : (1:ℚ) ≤ ((AllocationCalculator.cappedLines tn lines).length : ℚ) := by
          exact_mod_cast hk1
        rw [htca]
        have heq : (tv - (AllocationCalculator.cappedLines tn lines).length *
              (tv * (AllocationCalculator.MAX_PERCENTAGE / 100))) *
              (l.net_volume / AllocationCalculator.total_uncapped_net_volume tn lines) /
              tv * 100 =
            (1 - (AllocationCalculator.cappedLines tn lines).length *
              AllocationCalculator.MAX_PERCENTAGE / 100) *
              (l.net_volume / AllocationCalculator.total_uncapped_net_volume tn lines) *
              100 := by
          field_simp
          ring
        rw [heq]
        set kq : ℚ := ((AllocationCalculator.cappedLines tn lines).length : ℚ)
        set r : ℚ := l.net_volume / AllocationCalculator.total_uncapped_net_volume tn lines
        have hM : AllocationCalculator.MAX_PERCENTAGE = 99.99999 := rfl
        rw [hM]
        rcases le_or_lt (1 - kq * 99.99999 / 100) 0 with hneg | hpos
        · have hprod : (1 - kq * 99.99999 / 100) * r ≤ 0 :=
            mul_nonpos_of_nonpos_of_nonneg hneg hr0
          nlinarith
        · have h1 : (1 - kq * 99.99999 / 100) ≤ 1 - 99.99999 / 100 := by nlinarith
          have h2 : (1 - kq * 99.99999 / 100) * r ≤ (1 - 99.99999 / 100) * 1 :=
            mul_le_mul h1 hr1 hr0 (by norm_num)
          nlinarith
    · rw [if_neg htun] at hfl
      subst hfl
      show (0:ℚ) ≤ AllocationCalculator.MAX_PERCENTAGE
      norm_num [AllocationCalculator.MAX_PERCENTAGE]

/-- C3 (witness): the amended theorem instantiated on the single capped
partner holding 100% of the net volume. -/
theorem c3_cap_before_reconciliation_witness :
    capAlloc ∈ AllocationCalculator.step4 1000 100 [capLine] ∧
    capAlloc.final_percentage ≤ AllocationCalculator.MAX_PERCENTAGE := by
  have hm : capAlloc ∈ AllocationCalculator.step4 1000 100 [capLine] := by
    rw [step4_capLine_eval]
    exact List.mem_singleton.mpr rfl
  refine ⟨hm, c3_cap_before_reconciliation 1000 100 [capLine] (by norm_num) ?_ ?_ capAlloc hm⟩
  · intro l hl
    rw [List.mem_singleton.mp hl]
    norm_num [capLine]
  · norm_num [capLine]

/-!  C1: conservation of the terminal volume. -/

namespace AllocationCalculator

theorem finalRecord_allocated (tv : ℚ) (a : FinAlloc) :
    (finalRecord tv a).allocated_volume = roundTo 2 a.final_allocated := rfl

theorem addToNth_length (d : ℚ) (i : ℕ) (l : List FinAlloc) :
    (addToNth d i l).length = l.length := by
  induction l generalizing i with
  | nil => cases i <;> rfl
  | cons a l ih =>
    cases i with
    | zero => rfl
    | succ n => simp [addToNth, ih]

theorem addToNth_sum (d : ℚ) (i : ℕ) (l : List FinAlloc) (h : i < l.length) :
    ((addToNth d i l).map (·.final_allocated)).sum =
      (l.map (·.final_allocated)).sum + d := by
  induction l generalizing i with
  | nil => exact absurd h (Nat.not_lt_zero i)
  | cons a l ih =>
    cases i with
    | zero =>
      simp only [addToNth, List.map_cons, List.sum_cons]
      ring
    | succ n =>
      have hn : n < l.length := Nat.lt_of_succ_lt_succ h
      simp only [addToNth, List.map_cons, List.sum_cons, ih n hn]
      ring

theorem foldl_best_lt (n : ℕ) (pl : List (ℕ × ℚ)) (init : ℕ × ℚ)
    (hinit : init.1 < n) (hall : ∀ p ∈ pl, p.1 < n) :
    (pl.foldl (fun best p => if best.2 < p.2 then p else best) init).1 < n := by
  induction pl generalizing init with
  | nil => exact hinit
  | cons q pl ih =>
    rw [List.foldl_cons]
    refine ih _ ?_ (fun p hp => hall p (List.mem_cons_of_mem q hp))
    by_cases hc : init.2 < q.2
    · rw [if_pos hc]
      exact hall q (List.mem_cons_self q pl)
    · rw [if_neg hc]
      exact hinit

theorem largestIdx_lt_length (l : List ℚ) (h : l ≠ []) : largestIdx l < l.length := by
  rw [largestIdx]
  refine foldl_best_lt l.length l.enum (0, l.headD 0) (List.length_pos.mpr h) ?_
  intro p hp
  have hget := List.mem_enum_iff_get?.mp hp
  obtain ⟨hlt, -⟩ := List.get?_eq_some.mp hget
  exact hlt

theorem length_capped_add_uncapped (tn : ℚ) (lines : List NetLine) :
    (cappedLines tn lines).length + (uncappedLines tn lines).length = lines.length := by
  induction lines with
  | nil => rfl
  | cons l ls ih =>
    simp only [cappedLines, uncappedLines] at ih ⊢
    rw [List.filter_cons, List.filter_cons]
    by_cases hc : MAX_PERCENTAGE < rawPct tn l.net_volume
    · rw [decide_eq_true hc]
      simp only [Bool.not_true, if_true, Bool.false_eq_true, if_false, List.length_cons]
      omega
    · rw [decide_eq_false hc]
      simp only [Bool.not_false, if_true, Bool.false_eq_true, if_false, List.length_cons]
      omega

theorem step4_length (tv tn : ℚ) (lines : List NetLine) :
    (step4 tv tn lines).length = lines.length := by
  rw [step4]
  simp only [List.length_append, List.length_map]
  exact length_capped_add_uncapped tn lines

theorem reconcile_length (tv : ℚ) (allocs : List FinAlloc) :
    (reconcile tv allocs).length = allocs.length := by
  rw [reconcile]
  split_ifs with h
  · rw [List.length_map, addToNth_length]
  · rw [List.length_map]

/-- After the reconciliation step the allocated volumes sum to the terminal
volume up to the final per-record 2-decimal rounding: within length/200. -/
theorem reconcile_sum_bound (tv : ℚ) (allocs : List FinAlloc) (h : allocs ≠ []) :
    |((reconcile tv allocs).map (·.allocated_volume)).sum - tv| ≤
      (allocs.length : ℚ) / 200 := by
  rw [reconcile]
  have hlen : 0 < allocs.length := List.length_pos.mpr h
  by_cases hd : tv - (allocs.map (·.final_allocated)).sum ≠ 0
  · rw [if_pos ⟨hd, hlen⟩]
    have hmapne : allocs.map (·.final_allocated) ≠ [] := by
      simpa using h
    have hidx : largestIdx (allocs.map (·.final_allocated)) < allocs.length := by
      have := largestIdx_lt_length (allocs.map (·.final_allocated)) hmapne
      simpa using this
    have hsum : ((addToNth (tv - (allocs.map (·.final_allocated)).sum)
        (largestIdx (allocs.map (·.final_allocated))) allocs).map (·.final_allocated)).sum
        = tv := by
      rw [addToNth_sum _ _ _ hidx]
      ring
    have hmm : (((addToNth (tv - (allocs.map (·.final_allocated)).sum)
        (largestIdx (allocs.map (·.final_allocated))) allocs).map (finalRecord tv)).map
          (·.allocated_volume)) =
        ((addToNth (tv - (allocs.map (·.final_allocated)).sum)
          (largestIdx (allocs.map (·.final_allocated))) allocs).map
            (·.final_allocated)).map (roundTo 2) := by
      rw [List.map_map, List.map_map]
      rfl
    rw [hmm]
    have hb := abs_sum_roundTo_sub_sum_le ((addToNth (tv - (allocs.map
      (·.final_allocated)).sum) (largestIdx (allocs.map (·.final_allocated)))
        allocs).map (·.final_allocated))
    rw [hsum] at hb
    have hlen2 : ((addToNth (tv - (allocs.map (·.final_allocated)).sum)
        (largestIdx (allocs.map (·.final_allocated))) allocs).map
          (·.final_allocated)).length = allocs.length := by
      rw [List.length_map, addToNth_length]
    rw [hlen2] at hb
    exact hb
  · rw [if_neg (fun hcon => hd hcon.1)]
    have hsum : (allocs.map (·.final_allocated)).sum = tv := by
      have := not_not.mp hd
      linarith
    have hmm : ((allocs.map (finalRecord tv)).map (·.allocated_volume)) =
        (allocs.map (·.final_allocated)).map (roundTo 2) := by
      rw [List.map_map, List.map_map]
      rfl
    rw [hmm]
    have hb := abs_sum_roundTo_sub_sum_le (allocs.map (·.final_allocated))
    rw [hsum, List.length_map] at hb
    exact hb

theorem entryValid_gross_pos {e : ProductionEntry} (h : entryValid e) :
    0 < e.gross_volume_bbl := by
  by_contra hng
  rw [not_lt] at hng
  have hne : NetVolumeCalculator.validate_inputs e.gross_volume_bbl e.bsw_percent
      e.temperature_degF e.api_gravity ≠ [] := by
    rw [NetVolumeCalculator.validate_inputs, if_pos hng]
    simp
  exact hne h

theorem aggregate_ne_nil (entries : List ProductionEntry) (hne : entries ≠ [])
    (hpos : ∀ e ∈ entries, 0 < e.gross_volume_bbl) :
    aggregate_by_partner entries ≠ [] := by
  obtain ⟨e₀, he₀⟩ := List.exists_mem_of_ne_nil entries hne
  have hp : e₀.partner ∈ partnerKeys entries :=
    (mem_partnerKeys entries e₀.partner).mpr (List.mem_map_of_mem (·.partner) he₀)
  have hmem : e₀ ∈ entriesOf entries e₀.partner :=
    List.mem_filter.mpr ⟨he₀, by simp⟩
  have htg : 0 < total_gross_of entries e₀.partner := by
    refine List.sum_pos _ ?_ (List.ne_nil_of_mem (List.mem_map_of_mem (·.gross_volume_bbl) hmem))
    intro x hx
    rcases List.mem_map.mp hx with ⟨e, he, rfl⟩
    exact hpos e (List.mem_of_mem_filter he)
  have hm : e₀.partner ∈ (aggregate_by_partner entries).map (·.partner) :=
    (mem_map_partner_aggregate entries e₀.partner).mpr ⟨hp, htg⟩
  intro hnil
  rw [hnil] at hm
  exact absurd hm (List.not_mem_nil _)

theorem effective_entries_ne_nil (entries : List ProductionEntry) (hne : entries ≠ [])
    (hval : ∀ e ∈ entries, entryValid e) :
    effective_entries entries ≠ [] := by
  rw [effective_entries]
  split_ifs with hdup
  · exact aggregate_ne_nil entries hne (fun e he => entryValid_gross_pos (hval e he))
  · exact hne

end AllocationCalculator

/-- C1 (amended): for every valid input batch (non-empty entries all passing
field validation, terminal_volume > 0, terminal_api > 0), the allocated
volumes returned by `calculate` sum to terminal_volume to within
0.005 × (number of allocation records) bbl — the reconciliation makes the
pre-rounding sum exactly terminal_volume, and each record's final 2-decimal
rounding can then move the sum by at most half a cent per record, so the
claimed 0.01 bbl bound holds only for up to two records. -/
theorem c1_conservation (entries : List AllocationCalculator.ProductionEntry)
    (rcpt : AllocationCalculator.TerminalReceipt) (r : AllocationCalculator.AllocationResult)
    (hne : entries ≠ [])
    (hval : ∀ e ∈ entries, AllocationCalculator.entryValid e)
    (htv : 0 < rcpt.terminal_volume_bbl) (hta : 0 < rcpt.api_gravity)
    (hok : AllocationCalculator.calculate entries rcpt = .ok r) :
    |(r.allocation_results.map (·.allocated_volume)).sum - rcpt.terminal_volume_bbl| ≤
      (r.allocation_results.length : ℚ) / 200 := by
  have hbuild := AllocationCalculator.calculate_ok_inversion entries rcpt r hok
  have hrecs : r.allocation_results =
      AllocationCalculator.reconcile rcpt.terminal_volume_bbl
        (AllocationCalculator.step4 rcpt.terminal_volume_bbl
          ((((AllocationCalculator.effective_entries entries).map
            (AllocationCalculator.netLineOf rcpt.api_gravity)).map (·.net_volume)).sum)
          ((AllocationCalculator.effective_entries entries).map
            (AllocationCalculator.netLineOf rcpt.api_gravity))) := by
    rw [hbuild]
    rfl
  have heffne := AllocationCalculator.effective_entries_ne_nil entries hne hval
  have hlinesne : (AllocationCalculator.effective_entries entries).map
      (AllocationCalculator.netLineOf rcpt.api_gravity) ≠ [] := by
    simpa using heffne
  have hstepne : AllocationCalculator.step4 rcpt.terminal_volume_bbl
      ((((AllocationCalculator.effective_entries entries).map
        (AllocationCalculator.netLineOf rcpt.api_gravity)).map (·.net_volume)).sum)
      ((AllocationCalculator.effective_entries entries).map
        (AllocationCalculator.netLineOf rcpt.api_gravity)) ≠ [] := by
    intro hnil
    have := AllocationCalculator.step4_length rcpt.terminal_volume_bbl
      ((((AllocationCalculator.effective_entries entries).map
        (AllocationCalculator.netLineOf rcpt.api_gravity)).map (·.net_volume)).sum)
      ((AllocationCalculator.effective_entries entries).map
        (AllocationCalculator.netLineOf rcpt.api_gravity))
    rw [hnil] at this
    exact hlinesne (List.length_eq_zero.mp this.symm)
  have hb := AllocationCalculator.reconcile_sum_bound rcpt.terminal_volume_bbl _ hstepne
  rw [← hrecs] at hb
  have hlen : r.allocation_results.length =
      (AllocationCalculator.step4 rcpt.terminal_volume_bbl
        ((((AllocationCalculator.effective_entries entries).map
          (AllocationCalculator.netLineOf rcpt.api_gravity)).map (·.net_volume)).sum)
        ((AllocationCalculator.effective_entries entries).map
          (AllocationCalculator.netLineOf rcpt.api_gravity))).length := by
    rw [hrecs, AllocationCalculator.reconcile_length]
  rw [hlen]
  exact hb

/-- The three-partner batch of the C1 counterexample. -/
def c1entries : List AllocationCalculator.ProductionEntry :=
  [⟨"A", 100, 0, 60, 35⟩, ⟨"B", 100, 0, 60, 35⟩, ⟨"C", 100, 0, 60, 35⟩]

theorem c1entries_valid : ∀ e ∈ c1entries, AllocationCalculator.entryValid e := by
  intro e he
  rw [c1entries, List.mem_cons, List.mem_cons, List.mem_singleton] at he
  rcases he with rfl | rfl | rfl
  all_goals
    norm_num [AllocationCalculator.entryValid, NetVolumeCalculator.validate_inputs,
      TemperatureCorrector.validate_temperature, APICorrector.validate_api_gravity]

/-- C1 (counterexample): a valid three-partner batch with terminal volume
100.0053 bbl: each partner's exact allocation is 33.3351, which rounds to
33.34, so the returned allocated volumes sum to 100.02 — 0.0147 bbl away from
the terminal volume, beyond the claimed 0.01 bbl. -/
theorem c1_counterexample :
    (∀ e ∈ c1entries, AllocationCalculator.entryValid e) ∧
    (AllocationCalculator.calculate c1entries ⟨100.0053, 35⟩).map
      (fun r => (r.allocation_results.map (·.allocated_volume)).sum) = .ok 100.02 ∧
    ¬ (|(100.02 : ℚ) - 100.0053| ≤ 0.01) := by
  refine ⟨c1entries_valid, ?_, by rw [abs_of_pos (by norm_num)]; norm_num⟩
  have heff : AllocationCalculator.effective_entries c1entries = c1entries := by
    rw [AllocationCalculator.effective_entries, if_neg]
    rw [(by decide : AllocationCalculator.partnerKeys c1entries = ["A", "B", "C"]),
      (by decide : c1entries.length = 3)]
    decide
  rw [AllocationCalculator.calculate_eq_ok _ _ (by rw [c1entries]; simp)
    (by norm_num) (by norm_num)
    (by rw [heff]; exact c1entries_valid)]
  rw [heff]
  have hline : c1entries.map (AllocationCalculator.netLineOf 35) =
      [⟨"A", 100, 100, 1, 1, 1, 0, 0, 0⟩, ⟨"B", 100, 100, 1, 1, 1, 0, 0, 0⟩,
        ⟨"C", 100, 100, 1, 1, 1, 0, 0, 0⟩] := by
    rw [c1entries, List.map_cons, List.map_cons, List.map_cons, List.map_nil,
      AllocationCalculator.netLineOf_std, AllocationCalculator.netLineOf_std,
      AllocationCalculator.netLineOf_std]
    norm_num [roundTo, round_eq]
  rw [hline]
  have hstep : AllocationCalculator.step4 (1000053 / 10000) 300
      [⟨"A", 100, 100, 1, 1, 1, 0, 0, 0⟩, ⟨"B", 100, 100, 1, 1, 1, 0, 0, 0⟩,
        ⟨"C", 100, 100, 1, 1, 1, 0, 0, 0⟩] =
      [⟨⟨"A", 100, 100, 1, 1, 1, 0, 0, 0⟩, 100/3, false, 100/3, 333351 / 10000⟩,
        ⟨⟨"B", 100, 100, 1, 1, 1, 0, 0, 0⟩, 100/3, false, 100/3, 333351 / 10000⟩,
        ⟨⟨"C", 100, 100, 1, 1, 1, 0, 0, 0⟩, 100/3, false, 100/3, 333351 / 10000⟩] := by
    norm_num [AllocationCalculator.step4, AllocationCalculator.cappedLines,
      AllocationCalculator.uncappedLines, AllocationCalculator.total_capped_allocation,
      AllocationCalculator.total_uncapped_net_volume, AllocationCalculator.rawPct,
      AllocationCalculator.MAX_PERCENTAGE, List.filter_cons, decide_eq_true_eq]
  norm_num [AllocationCalculator.build_result, hstep, AllocationCalculator.reconcile,
    AllocationCalculator.finalRecord, Except.map, roundTo, round_eq]

/-- The allocation result of the C1 witness batch. -/
def c1wResult : AllocationCalculator.AllocationResult :=
  AllocationCalculator.build_result 1000
    (([⟨"A", 100, 0, 60, 35⟩] : List AllocationCalculator.ProductionEntry).map
      (AllocationCalculator.netLineOf 35))

/-- C1 (witness): the amended bound instantiated on a valid single-partner
batch with terminal volume 1000. -/
theorem c1_conservation_witness :
    |(c1wResult.allocation_results.map (·.allocated_volume)).sum - 1000| ≤
      (c1wResult.allocation_results.length : ℚ) / 200 := by
  have hval : ∀ e ∈ AllocationCalculator.effective_entries
      ([⟨"A", 100, 0, 60, 35⟩] : List AllocationCalculator.ProductionEntry),
      AllocationCalculator.entryValid e := by
    rw [effective_entries_singleton]
    intro e he
    rw [List.mem_singleton.mp he]
    norm_num [AllocationCalculator.entryValid, NetVolumeCalculator.validate_inputs,
      TemperatureCorrector.validate_temperature, APICorrector.validate_api_gravity]
  have hok : AllocationCalculator.calculate [⟨"A", 100, 0, 60, 35⟩] ⟨1000, 35⟩ =
      .ok (AllocationCalculator.build_result 1000
        (([⟨"A", 100, 0, 60, 35⟩] : List AllocationCalculator.ProductionEntry).map
          (AllocationCalculator.netLineOf 35))) := by
    have h := AllocationCalculator.calculate_eq_ok [⟨"A", 100, 0, 60, 35⟩] ⟨1000, 35⟩
      (by simp) (by norm_num) (by norm_num) hval
    rw [h, effective_entries_singleton]
  have hmain := c1_conservation [⟨"A", 100, 0, 60, 35⟩] ⟨1000, 35⟩ _
    (by simp) (by
      intro e he
      rw [List.mem_singleton.mp he]
      norm_num [AllocationCalculator.entryValid, NetVolumeCalculator.validate_inputs,
        TemperatureCorrector.validate_temperature, APICorrector.validate_api_gravity])
    (by norm_num) (by norm_num) hok
  exact hmain
